import Mathlib

/-!
Verification of the Hash Code 2021 traffic-signaling insights reporter.

The repository contains two near-identical implementations of the referee:
`src/index.js` (streets keep an explicit FIFO array `carIdQueue` of car
indices, crossing shifts the head) and `src/unnamed/part_001` (streets keep
two monotonic counters, `nextQueuingNumber` and `lastQueuingNumber`, and each
car carries a `queuingNumber` ticket).  Everything else — the tick loop, the
green-window check, the per-tick crossed marker, scoring — is the same code
in both files.

This file shallowly embeds both simulation engines and the submission
validator, and proves the frozen claims about them.  JavaScript objects used
as string-keyed maps become functions `String → Option _` updated pointwise;
the mutable per-tick loop becomes structural recursion over the list of car
indices; machine numbers are `Nat` (with `Int` casts exactly where the
source compares against `numStreets - 1`, which can be `-1` in JavaScript).
-/

namespace Traffic

/-- Pointwise update of a string-keyed map, modelling `obj[key] = value`. -/
def updf {α : Type} (f : String → α) (s : String) (a : α) : String → α :=
  fun t => if t = s then a else f t

@[simp] theorem updf_same {α : Type} (f : String → α) (s : String) (a : α) :
    updf f s a s = a := by simp [updf]

@[simp] theorem updf_other {α : Type} (f : String → α) (s t : String) (a : α)
    (h : t ≠ s) : updf f s a t = f t := by simp [updf, h]

/-! ## The counter-based engine of `src/unnamed/part_001` -/

/-- Street record of `part_001`: traversal `duration`, the virtual-queue
counters `lastQueuingNumber` (initially `-1`, hence `Int`) and
`nextQueuingNumber`, and the compiled green window `schedule = (gte, lte)`
with the owning intersection's cycle length `scheduledTimeWindow`
(both written by the validator, absent for unscheduled streets). -/
structure Street2 where
  duration : Nat
  lastQueuingNumber : Int
  nextQueuingNumber : Nat
  schedule : Option (Nat × Nat)
  scheduledTimeWindow : Nat
deriving Repr, DecidableEq

/-- Car record of `part_001`. -/
structure Car2 where
  numStreets : Nat
  streetNames : List String
  currentStreetIdx : Nat
  currentStreetName : String
  remainingTimeOnStreet : Nat
  queuingNumber : Nat
  arrived : Bool
  score : Nat
  commuteTime : Nat
deriving Repr, DecidableEq

/-- Result of processing one car for one tick: the (possibly updated)
crossed marker, street map and car, plus a ghost crossing event
`(streetName, queuingNumber)` when the car crossed an intersection. -/
structure CarRes2 where
  crossed : String → Bool
  streets : String → Option Street2
  car : Car2
  event : Option (String × Nat)

/-- Lines 182–187 of `part_001`: a car one tick from the end of a street
that still has streets to travel takes the next queuing ticket of its
current street. -/
def registerStep2 (streets : String → Option Street2) (car : Car2) :
    (String → Option Street2) × Car2 :=
  if car.remainingTimeOnStreet = 1 ∧
      (car.currentStreetIdx : Int) < (car.numStreets : Int) - 1 then
    match streets car.currentStreetName with
    | some st =>
      (updf streets car.currentStreetName
        (some { st with nextQueuingNumber := st.nextQueuingNumber + 1 }),
       { car with queuingNumber := st.nextQueuingNumber })
    | none => (streets, car)
  else (streets, car)

/-- Lines 189–191 of `part_001`: decrement a positive remaining time. -/
def moveStep2 (car : Car2) : Car2 :=
  if car.remainingTimeOnStreet > 0 then
    { car with remainingTimeOnStreet := car.remainingTimeOnStreet - 1 }
  else car

/-- Green-light test of lines 207–213 of `part_001`. -/
def isTrafficLightGreen2 (time : Nat) (st : Street2) : Bool :=
  match st.schedule with
  | some (gte, lte) =>
    decide (gte ≤ time % st.scheduledTimeWindow ∧
      time % st.scheduledTimeWindow ≤ lte)
  | none => false

/-- Lines 193–228 of `part_001`: a car whose remaining time reached `0`
either arrives (last street), stalls on the final tick, or attempts to
cross under the light, marker and virtual-queue checks. -/
def crossStep2 (bonusPoint time remainingTime : Nat)
    (crossed : String → Bool) (streets : String → Option Street2)
    (car : Car2) : CarRes2 :=
  if car.remainingTimeOnStreet = 0 then
    if (car.currentStreetIdx : Int) = (car.numStreets : Int) - 1 then
      ⟨crossed, streets,
       { car with arrived := true, score := bonusPoint + remainingTime,
                  commuteTime := time }, none⟩
    else if remainingTime = 0 then ⟨crossed, streets, car, none⟩
    else
      match streets car.currentStreetName with
      | none => ⟨crossed, streets, car, none⟩
      | some st =>
        if isTrafficLightGreen2 time st = false ∨
            crossed car.currentStreetName = true ∨
            st.lastQueuingNumber + 1 ≠ (car.queuingNumber : Int) then
          ⟨crossed, streets, car, none⟩
        else
          let streets2 := updf streets car.currentStreetName
            (some { st with lastQueuingNumber := (car.queuingNumber : Int) })
          let nextName := car.streetNames.getD (car.currentStreetIdx + 1) ""
          let nextDuration :=
            match streets2 nextName with
            | some stNext => stNext.duration
            | none => 0
          ⟨updf crossed car.currentStreetName true, streets2,
           { car with currentStreetIdx := car.currentStreetIdx + 1,
                      currentStreetName := nextName,
                      remainingTimeOnStreet := nextDuration },
           some (car.currentStreetName, car.queuingNumber)⟩
  else ⟨crossed, streets, car, none⟩

/-- One car's processing for one tick (lines 177–228 of `part_001`). -/
def carStep2 (bonusPoint time remainingTime : Nat)
    (crossed : String → Bool) (streets : String → Option Street2)
    (car : Car2) : CarRes2 :=
  if car.arrived then ⟨crossed, streets, car, none⟩
  else
    let reg := registerStep2 streets car
    crossStep2 bonusPoint time remainingTime crossed reg.1 (moveStep2 reg.2)

/-- Result of one tick: final crossed marker, streets, cars and the list of
crossing events in processing order. -/
structure TickRes2 where
  crossed : String → Bool
  streets : String → Option Street2
  cars : Nat → Car2
  events : List (String × Nat)

/-- Inner loop of a tick, processing the cars named by `order`.  The source
iterates the car array in index order; the index list is a parameter so that
order-independence of the invariants can be stated. -/
def carsLoop2 (bonusPoint time remainingTime : Nat) :
    (String → Bool) → (String → Option Street2) → (Nat → Car2) →
    List Nat → TickRes2
  | crossed, streets, cars, [] => ⟨crossed, streets, cars, []⟩
  | crossed, streets, cars, i :: rest =>
    let r := carStep2 bonusPoint time remainingTime crossed streets (cars i)
    let res := carsLoop2 bonusPoint time remainingTime r.crossed r.streets
      (fun j => if j = i then r.car else cars j) rest
    ⟨res.crossed, res.streets, res.cars, r.event.toList ++ res.events⟩

/-- One tick of the simulation loop: the crossed marker starts empty
(line 175 of `part_001`) and all cars are processed in index order. -/
def tickStep2 (bonusPoint time remainingTime numCars : Nat)
    (streets : String → Option Street2) (cars : Nat → Car2) : TickRes2 :=
  carsLoop2 bonusPoint time remainingTime (fun _ => false) streets cars
    (List.range numCars)

/-- Final state of a simulation, with the ghost trace of all crossing
events `(time, streetName, queuingNumber)` in chronological order. -/
structure SimRes2 where
  streets : String → Option Street2
  cars : Nat → Car2
  trace : List (Nat × String × Nat)

/-- Tick loop of lines 170–233 of `part_001`: with `fuel` iterations left,
the body observes `remainingTime = fuel - 1` (the source decrements in the
loop test) and the current `time`. -/
def simLoop2 (bonusPoint numCars : Nat) :
    Nat → Nat → (String → Option Street2) → (Nat → Car2) → SimRes2
  | 0, _, streets, cars => ⟨streets, cars, []⟩
  | fuel + 1, time, streets, cars =>
    let r := tickStep2 bonusPoint time fuel numCars streets cars
    let rest := simLoop2 bonusPoint numCars fuel (time + 1) r.streets r.cars
    ⟨rest.streets, rest.cars, r.events.map (fun e => (time, e)) ++ rest.trace⟩

/-- Whole simulation of `part_001`: `duration + 1` ticks at
`time = 0, …, duration`. -/
def simulate2 (bonusPoint duration numCars : Nat)
    (streets : String → Option Street2) (cars : Nat → Car2) : SimRes2 :=
  simLoop2 bonusPoint numCars (duration + 1) 0 streets cars

/-! ## Basic facts about the single-car step -/

@[simp] theorem registerStep2_arrived (streets : String → Option Street2)
    (car : Car2) : ((registerStep2 streets car).2).arrived = car.arrived := by
  rw [registerStep2]; split
  · split <;> rfl
  · rfl

@[simp] theorem registerStep2_numStreets (streets : String → Option Street2)
    (car : Car2) :
    ((registerStep2 streets car).2).numStreets = car.numStreets := by
  rw [registerStep2]; split
  · split <;> rfl
  · rfl

@[simp] theorem registerStep2_streetNames (streets : String → Option Street2)
    (car : Car2) :
    ((registerStep2 streets car).2).streetNames = car.streetNames := by
  rw [registerStep2]; split
  · split <;> rfl
  · rfl

@[simp] theorem registerStep2_currentStreetIdx (streets : String → Option Street2)
    (car : Car2) :
    ((registerStep2 streets car).2).currentStreetIdx = car.currentStreetIdx := by
  rw [registerStep2]; split
  · split <;> rfl
  · rfl

@[simp] theorem registerStep2_currentStreetName (streets : String → Option Street2)
    (car : Car2) :
    ((registerStep2 streets car).2).currentStreetName = car.currentStreetName := by
  rw [registerStep2]; split
  · split <;> rfl
  · rfl

@[simp] theorem registerStep2_remainingTimeOnStreet (streets : String → Option Street2)
    (car : Car2) :
    ((registerStep2 streets car).2).remainingTimeOnStreet =
      car.remainingTimeOnStreet := by
  rw [registerStep2]; split
  · split <;> rfl
  · rfl

@[simp] theorem registerStep2_score (streets : String → Option Street2)
    (car : Car2) : ((registerStep2 streets car).2).score = car.score := by
  rw [registerStep2]; split
  · split <;> rfl
  · rfl

@[simp] theorem registerStep2_commuteTime (streets : String → Option Street2)
    (car : Car2) :
    ((registerStep2 streets car).2).commuteTime = car.commuteTime := by
  rw [registerStep2]; split
  · split <;> rfl
  · rfl

@[simp] theorem moveStep2_arrived (car : Car2) :
    (moveStep2 car).arrived = car.arrived := by
  rw [moveStep2]; split <;> rfl

@[simp] theorem moveStep2_numStreets (car : Car2) :
    (moveStep2 car).numStreets = car.numStreets := by
  rw [moveStep2]; split <;> rfl

@[simp] theorem moveStep2_streetNames (car : Car2) :
    (moveStep2 car).streetNames = car.streetNames := by
  rw [moveStep2]; split <;> rfl

@[simp] theorem moveStep2_currentStreetIdx (car : Car2) :
    (moveStep2 car).currentStreetIdx = car.currentStreetIdx := by
  rw [moveStep2]; split <;> rfl

@[simp] theorem moveStep2_currentStreetName (car : Car2) :
    (moveStep2 car).currentStreetName = car.currentStreetName := by
  rw [moveStep2]; split <;> rfl

@[simp] theorem moveStep2_queuingNumber (car : Car2) :
    (moveStep2 car).queuingNumber = car.queuingNumber := by
  rw [moveStep2]; split <;> rfl

@[simp] theorem moveStep2_score (car : Car2) :
    (moveStep2 car).score = car.score := by
  rw [moveStep2]; split <;> rfl

@[simp] theorem moveStep2_commuteTime (car : Car2) :
    (moveStep2 car).commuteTime = car.commuteTime := by
  rw [moveStep2]; split <;> rfl

@[simp] theorem moveStep2_remainingTimeOnStreet (car : Car2) :
    (moveStep2 car).remainingTimeOnStreet = car.remainingTimeOnStreet - 1 := by
  rw [moveStep2]; split
  · rfl
  · omega

/-- Full case analysis of `crossStep2`: it either leaves the state alone,
marks the car arrived with the scoring of line 196, or performs a crossing
with all four guards satisfied. -/
theorem crossStep2_cases (bonusPoint time remainingTime : Nat)
    (crossed : String → Bool) (streets : String → Option Street2)
    (car : Car2) :
    (crossStep2 bonusPoint time remainingTime crossed streets car =
        ⟨crossed, streets, car, none⟩) ∨
    (car.remainingTimeOnStreet = 0 ∧
      (car.currentStreetIdx : Int) = (car.numStreets : Int) - 1 ∧
      crossStep2 bonusPoint time remainingTime crossed streets car =
        ⟨crossed, streets,
         { car with arrived := true, score := bonusPoint + remainingTime,
                    commuteTime := time }, none⟩) ∨
    (∃ st, car.remainingTimeOnStreet = 0 ∧
      (car.currentStreetIdx : Int) ≠ (car.numStreets : Int) - 1 ∧
      remainingTime ≠ 0 ∧
      streets car.currentStreetName = some st ∧
      isTrafficLightGreen2 time st = true ∧
      crossed car.currentStreetName = false ∧
      st.lastQueuingNumber + 1 = (car.queuingNumber : Int) ∧
      crossStep2 bonusPoint time remainingTime crossed streets car =
        ⟨updf crossed car.currentStreetName true,
         updf streets car.currentStreetName
           (some { st with lastQueuingNumber := (car.queuingNumber : Int) }),
         { car with
             currentStreetIdx := car.currentStreetIdx + 1,
             currentStreetName :=
               car.streetNames.getD (car.currentStreetIdx + 1) "",
             remainingTimeOnStreet :=
               match updf streets car.currentStreetName
                   (some { st with
                             lastQueuingNumber := (car.queuingNumber : Int) })
                   (car.streetNames.getD (car.currentStreetIdx + 1) "") with
               | some stNext => stNext.duration
               | none => 0 },
         some (car.currentStreetName, car.queuingNumber)⟩) := by
  rw [crossStep2]
  split
  · rename_i hrem
    split
    · rename_i hlast
      exact Or.inr (Or.inl ⟨hrem, hlast, rfl⟩)
    · rename_i hlast
      split
      · exact Or.inl rfl
      · rename_i hk
        split
        · exact Or.inl rfl
        · rename_i st hst
          split
          · exact Or.inl rfl
          · rename_i hguards
            push_neg at hguards
            obtain ⟨hg, hc, hq⟩ := hguards
            refine Or.inr (Or.inr ⟨st, hrem, hlast, hk, hst, ?_, ?_, hq, rfl⟩)
            · simpa using hg
            · simpa using hc
  · exact Or.inl rfl

/-- Per-car view of one step: the arrival/score/commute fields are either
left alone or set by the arrival branch with the current tick's data. -/
theorem carStep2_car_cases (bonusPoint time remainingTime : Nat)
    (crossed : String → Bool) (streets : String → Option Street2)
    (car : Car2) :
    ((carStep2 bonusPoint time remainingTime crossed streets car).car.arrived
        = car.arrived ∧
      (carStep2 bonusPoint time remainingTime crossed streets car).car.score
        = car.score ∧
      (carStep2 bonusPoint time remainingTime crossed streets car).car.commuteTime
        = car.commuteTime) ∨
    (car.arrived = false ∧
      (carStep2 bonusPoint time remainingTime crossed streets car).car.arrived
        = true ∧
      (carStep2 bonusPoint time remainingTime crossed streets car).car.score
        = bonusPoint + remainingTime ∧
      (carStep2 bonusPoint time remainingTime crossed streets car).car.commuteTime
        = time) := by
  by_cases h : car.arrived = true
  · exact Or.inl (by simp [carStep2, h])
  · have h' : car.arrived = false := by simpa using h
    rw [carStep2, if_neg (by simp [h'])]
    rcases crossStep2_cases bonusPoint time remainingTime crossed
        (registerStep2 streets car).1
        (moveStep2 (registerStep2 streets car).2) with
      hcase | ⟨h0, hl, hcase⟩ | ⟨st, h0, hne, hk, hst, hg, hc, hq, hcase⟩
    · rw [hcase]; exact Or.inl (by simp [h'])
    · rw [hcase]; exact Or.inr (by simp [h'])
    · rw [hcase]; exact Or.inl (by simp [h'])

/-- Invariant of C1 on a car population. -/
def ArrivalInv (bonusPoint duration : Nat) (cars : Nat → Car2) : Prop :=
  ∀ i, (cars i).arrived = true →
    (cars i).commuteTime ≤ duration ∧
    (cars i).score = bonusPoint + (duration - (cars i).commuteTime)

theorem carsLoop2_arrival_inv (bonusPoint time remainingTime duration : Nat)
    (hk : time + remainingTime = duration) (order : List Nat) :
    ∀ (crossed : String → Bool) (streets : String → Option Street2)
      (cars : Nat → Car2), ArrivalInv bonusPoint duration cars →
      ArrivalInv bonusPoint duration
        ((carsLoop2 bonusPoint time remainingTime crossed streets cars
          order).cars) := by
  induction order with
  | nil => intro crossed streets cars h; exact h
  | cons j rest ih =>
    intro crossed streets cars h
    rw [carsLoop2]
    apply ih
    intro i hi
    by_cases hij : i = j
    · subst hij
      simp only [eq_self_iff_true, if_true] at hi ⊢
      rcases carStep2_car_cases bonusPoint time remainingTime crossed streets
          (cars i) with ⟨ha, hs, hc⟩ | ⟨_, ha, hs, hc⟩
      · rw [ha] at hi; rw [hs, hc]; exact h i hi
      · rw [hs, hc]; omega
    · simp only [if_neg hij] at hi ⊢; exact h i hi

theorem simLoop2_arrival_inv (bonusPoint numCars duration : Nat) :
    ∀ (fuel time : Nat) (streets : String → Option Street2)
      (cars : Nat → Car2), time + fuel = duration + 1 →
      ArrivalInv bonusPoint duration cars →
      ArrivalInv bonusPoint duration
        ((simLoop2 bonusPoint numCars fuel time streets cars).cars) := by
  intro fuel
  induction fuel with
  | zero => intro time streets cars _ h; exact h
  | succ f ih =>
    intro time streets cars htime h
    rw [simLoop2]
    exact ih (time + 1) _ _ (by omega)
      (carsLoop2_arrival_inv bonusPoint time f duration (by omega) _ _ _ _ h)

/-- C1: for every car that arrives during the simulation, if it arrives on
tick `t` then its `commuteTime` equals `t`, `t` lies within `[0, duration]`,
and its score equals `bonus + (duration - commuteTime)`. -/
theorem C1_arrival_scoring :
    (∀ (bonusPoint time remainingTime : Nat) (crossed : String → Bool)
       (streets : String → Option Street2) (car : Car2),
       car.arrived = false →
       (carStep2 bonusPoint time remainingTime crossed streets car).car.arrived
         = true →
       (carStep2 bonusPoint time remainingTime crossed streets
           car).car.commuteTime = time ∧
       (carStep2 bonusPoint time remainingTime crossed streets car).car.score
         = bonusPoint + remainingTime) ∧
    (∀ (bonusPoint duration numCars : Nat)
       (streets : String → Option Street2) (cars : Nat → Car2),
       (∀ i, (cars i).arrived = false) →
       ∀ i, ((simulate2 bonusPoint duration numCars streets cars).cars
           i).arrived = true →
         ((simulate2 bonusPoint duration numCars streets cars).cars
             i).commuteTime ≤ duration ∧
         ((simulate2 bonusPoint duration numCars streets cars).cars i).score
           = bonusPoint +
             (duration -
               ((simulate2 bonusPoint duration numCars streets cars).cars
                 i).commuteTime)) := by
  constructor
  · intro bonusPoint time remainingTime crossed streets car h0 h1
    rcases carStep2_car_cases bonusPoint time remainingTime crossed streets
        car with ⟨ha, _, _⟩ | ⟨_, _, hs, hc⟩
    · rw [ha, h0] at h1; exact absurd h1 (by simp)
    · exact ⟨hc, hs⟩
  · intro bonusPoint duration numCars streets cars h0
    exact simLoop2_arrival_inv bonusPoint numCars duration (duration + 1) 0
      streets cars (by omega) (fun i hi => by rw [h0 i] at hi; exact absurd hi (by simp))

/-- Concrete three-street city used to witness the claims: streets `a`, `b`,
`c` with durations 1, 3, 1, all scheduled fully green on a cycle of 5. -/
def sampleStreets : String → Option Street2 :=
  updf (updf (updf (fun _ => none) "a" (some ⟨1, -1, 1, some (0, 4), 5⟩))
    "b" (some ⟨3, -1, 0, some (0, 4), 5⟩)) "c" (some ⟨1, -1, 0, some (0, 4), 5⟩)

/-- Single car driving the route `a`, `b`, `c`, as produced by the parser:
index 0, first queuing ticket of `a`, nothing travelled yet. -/
def sampleCar : Car2 := ⟨3, ["a", "b", "c"], 0, "a", 0, 0, false, 0, 0⟩

def sampleCars : Nat → Car2 := fun _ => sampleCar

theorem C1_arrival_scoring_witness :
    ((simulate2 0 5 1 sampleStreets sampleCars).cars 0).commuteTime ≤ 5 ∧
    ((simulate2 0 5 1 sampleStreets sampleCars).cars 0).score =
      0 + (5 - ((simulate2 0 5 1 sampleStreets sampleCars).cars 0).commuteTime) :=
  C1_arrival_scoring.2 0 5 1 sampleStreets sampleCars (fun _ => rfl) 0
    (by decide)

/-! ## Green windows (C2) -/

/-- Static data of a street entry: traversal duration and compiled schedule.
The engine never writes these fields, only the queue counters. -/
def staticInfo : Option Street2 → Option (Nat × Option (Nat × Nat) × Nat)
  | some st => some (st.duration, st.schedule, st.scheduledTimeWindow)
  | none => none

theorem registerStep2_staticInfo (streets : String → Option Street2)
    (car : Car2) (s : String) :
    staticInfo ((registerStep2 streets car).1 s) = staticInfo (streets s) := by
  rw [registerStep2]; split
  · split
    · rename_i st hst
      by_cases hs : s = car.currentStreetName
      · subst hs; simp [updf, hst, staticInfo]
      · simp [updf, hs]
    · rfl
  · rfl

theorem crossStep2_staticInfo (bonusPoint time remainingTime : Nat)
    (crossed : String → Bool) (streets : String → Option Street2)
    (car : Car2) (s : String) :
    staticInfo ((crossStep2 bonusPoint time remainingTime crossed streets
      car).streets s) = staticInfo (streets s) := by
  rcases crossStep2_cases bonusPoint time remainingTime crossed streets car
    with hcase | ⟨_, _, hcase⟩ | ⟨st, _, _, _, hst, _, _, _, hcase⟩ <;> rw [hcase]
  · by_cases hs : s = car.currentStreetName
    · subst hs; simp [updf, hst, staticInfo]
    · simp [updf, hs]

theorem carStep2_staticInfo (bonusPoint time remainingTime : Nat)
    (crossed : String → Bool) (streets : String → Option Street2)
    (car : Car2) (s : String) :
    staticInfo ((carStep2 bonusPoint time remainingTime crossed streets
      car).streets s) = staticInfo (streets s) := by
  rw [carStep2]; split
  · rfl
  · rw [crossStep2_staticInfo, registerStep2_staticInfo]

theorem carsLoop2_staticInfo (bonusPoint time remainingTime : Nat)
    (order : List Nat) :
    ∀ (crossed : String → Bool) (streets : String → Option Street2)
      (cars : Nat → Car2) (s : String),
      staticInfo ((carsLoop2 bonusPoint time remainingTime crossed streets
        cars order).streets s) = staticInfo (streets s) := by
  induction order with
  | nil => intro crossed streets cars s; rfl
  | cons j rest ih =>
    intro crossed streets cars s
    rw [carsLoop2]
    exact (ih _ _ _ s).trans (carStep2_staticInfo _ _ _ _ _ _ s)

theorem simLoop2_staticInfo (bonusPoint numCars : Nat) :
    ∀ (fuel time : Nat) (streets : String → Option Street2)
      (cars : Nat → Car2) (s : String),
      staticInfo ((simLoop2 bonusPoint numCars fuel time streets
        cars).streets s) = staticInfo (streets s) := by
  intro fuel
  induction fuel with
  | zero => intro time streets cars s; rfl
  | succ f ih =>
    intro time streets cars s
    rw [simLoop2]
    exact (ih _ _ _ s).trans (carsLoop2_staticInfo _ _ _ _ _ _ _ s)

/-- The street `s` is green at tick `t` in the map `streets`: it has a
compiled window and `t mod cycleLength` lies within its inclusive bounds. -/
def GreenOk (streets : String → Option Street2) (t : Nat) (s : String) :
    Prop :=
  ∃ st gte lte, streets s = some st ∧ st.schedule = some (gte, lte) ∧
    gte ≤ t % st.scheduledTimeWindow ∧ t % st.scheduledTimeWindow ≤ lte

theorem GreenOk_of_staticInfo_eq {streets1 streets2 : String → Option Street2}
    {t : Nat} {s : String}
    (h : staticInfo (streets1 s) = staticInfo (streets2 s)) :
    GreenOk streets1 t s → GreenOk streets2 t s := by
  rintro ⟨st, gte, lte, hst, hsch, h1, h2⟩
  rw [hst] at h
  match h2eq : streets2 s with
  | none => rw [h2eq] at h; exact absurd h (by simp [staticInfo])
  | some st2 =>
    rw [h2eq] at h
    simp only [staticInfo, Option.some.injEq, Prod.mk.injEq] at h
    obtain ⟨-, hsch2, hwin⟩ := h
    refine ⟨st2, gte, lte, h2eq, by rw [← hsch2, hsch], ?_, ?_⟩
    · rw [← hwin]; exact h1
    · rw [← hwin]; exact h2

theorem carStep2_event_green (bonusPoint time remainingTime : Nat)
    (crossed : String → Bool) (streets : String → Option Street2)
    (car : Car2) (s : String) (q : Nat)
    (h : (carStep2 bonusPoint time remainingTime crossed streets car).event
      = some (s, q)) : GreenOk streets time s := by
  rw [carStep2] at h
  split at h
  · exact absurd h (by simp)
  · rcases crossStep2_cases bonusPoint time remainingTime crossed
        (registerStep2 streets car).1
        (moveStep2 (registerStep2 streets car).2) with
      hcase | ⟨_, _, hcase⟩ | ⟨st, h0, hne, hk, hst, hg, hc, hq, hcase⟩
    · rw [hcase] at h; exact absurd h (by simp)
    · rw [hcase] at h; exact absurd h (by simp)
    · rw [hcase] at h
      simp only [Option.some.injEq, Prod.mk.injEq] at h
      apply GreenOk_of_staticInfo_eq (registerStep2_staticInfo streets car s)
      rw [isTrafficLightGreen2] at hg
      match hsch : st.schedule with
      | none => rw [hsch] at hg; exact absurd hg (by simp)
      | some (gte, lte) =>
        rw [hsch] at hg
        simp only [decide_eq_true_eq] at hg
        refine ⟨st, gte, lte, ?_, hsch, hg.1, hg.2⟩
        rw [← h.1]
        simpa using hst

theorem carsLoop2_event_green (bonusPoint time remainingTime : Nat)
    (order : List Nat) :
    ∀ (crossed : String → Bool) (streets : String → Option Street2)
      (cars : Nat → Car2) (s : String) (q : Nat),
      (s, q) ∈ (carsLoop2 bonusPoint time remainingTime crossed streets cars
        order).events → GreenOk streets time s := by
  induction order with
  | nil => intro crossed streets cars s q h; exact absurd h (by simp [carsLoop2])
  | cons j rest ih =>
    intro crossed streets cars s q h
    rw [carsLoop2] at h
    simp only [List.mem_append] at h
    rcases h with h | h
    · match hev : (carStep2 bonusPoint time remainingTime crossed streets
          (cars j)).event with
      | none => rw [hev] at h; exact absurd h (by simp)
      | some e =>
        rw [hev] at h
        simp only [Option.toList_some, List.mem_singleton] at h
        subst h
        exact carStep2_event_green bonusPoint time remainingTime crossed
          streets (cars j) s q hev
    · have := ih _ _ _ s q h
      exact GreenOk_of_staticInfo_eq
        (carStep2_staticInfo bonusPoint time remainingTime crossed streets
          (cars j) s) this

theorem simLoop2_trace_green (bonusPoint numCars : Nat) :
    ∀ (fuel time : Nat) (streets : String → Option Street2)
      (cars : Nat → Car2) (t : Nat) (s : String) (q : Nat),
      (t, s, q) ∈ (simLoop2 bonusPoint numCars fuel time streets cars).trace →
      GreenOk streets t s := by
  intro fuel
  induction fuel with
  | zero => intro time streets cars t s q h; exact absurd h (by simp [simLoop2])
  | succ f ih =>
    intro time streets cars t s q h
    rw [simLoop2] at h
    simp only [List.mem_append, List.mem_map] at h
    rcases h with ⟨e, he, heq⟩ | h
    · have h1 : time = t := congrArg Prod.fst heq
      have h2 : e = (s, q) := congrArg Prod.snd heq
      subst h1; subst h2
      exact carsLoop2_event_green bonusPoint time f _ _ _ _ s q he
    · have := ih _ _ _ t s q h
      exact GreenOk_of_staticInfo_eq
        (carsLoop2_staticInfo bonusPoint time f _ _ _ _ s) this

/-- C2: a car crosses street `s` at tick `t` only if `s` has a compiled
green window and `t mod cycleLength` lies within its inclusive bounds; in
particular a street with no schedule entry is never crossed during the whole
simulation. -/
theorem C2_crossings_only_on_green (bonusPoint duration numCars : Nat)
    (streets : String → Option Street2) (cars : Nat → Car2)
    (t : Nat) (s : String) (q : Nat)
    (h : (t, s, q) ∈ (simulate2 bonusPoint duration numCars streets
      cars).trace) :
    ∃ st gte lte, streets s = some st ∧ st.schedule = some (gte, lte) ∧
      gte ≤ t % st.scheduledTimeWindow ∧ t % st.scheduledTimeWindow ≤ lte :=
  simLoop2_trace_green bonusPoint numCars (duration + 1) 0 streets cars t s q h

theorem C2_crossings_only_on_green_witness :
    ∃ st gte lte, sampleStreets "b" = some st ∧
      st.schedule = some (gte, lte) ∧ gte ≤ 3 % st.scheduledTimeWindow ∧
      3 % st.scheduledTimeWindow ≤ lte :=
  C2_crossings_only_on_green 0 5 1 sampleStreets sampleCars 3 "b" 0
    (by decide)

/-! ## At most one crossing per street and tick (C3) -/

theorem crossStep2_crossed_mono (bonusPoint time remainingTime : Nat)
    (crossed : String → Bool) (streets : String → Option Street2)
    (car : Car2) (s : String) (h : crossed s = true) :
    (crossStep2 bonusPoint time remainingTime crossed streets car).crossed s
      = true := by
  rcases crossStep2_cases bonusPoint time remainingTime crossed streets car
    with hcase | ⟨_, _, hcase⟩ | ⟨st, _, _, _, _, _, _, _, hcase⟩ <;>
    rw [hcase] <;> try exact h
  by_cases hs : s = car.currentStreetName
  · subst hs; simp [updf]
  · simpa [updf, hs] using h

theorem crossStep2_event_marker (bonusPoint time remainingTime : Nat)
    (crossed : String → Bool) (streets : String → Option Street2)
    (car : Car2) (s : String) (q : Nat)
    (h : (crossStep2 bonusPoint time remainingTime crossed streets car).event
      = some (s, q)) :
    crossed s = false ∧
    (crossStep2 bonusPoint time remainingTime crossed streets car).crossed s
      = true := by
  rcases crossStep2_cases bonusPoint time remainingTime crossed streets car
    with hcase | ⟨_, _, hcase⟩ | ⟨st, _, _, _, _, _, hc, _, hcase⟩ <;>
    rw [hcase] at h ⊢
  · exact absurd h (by simp)
  · exact absurd h (by simp)
  · simp only [Option.some.injEq, Prod.mk.injEq] at h
    obtain ⟨h1, -⟩ := h
    subst h1
    exact ⟨hc, by simp [updf]⟩

theorem carStep2_crossed_mono (bonusPoint time remainingTime : Nat)
    (crossed : String → Bool) (streets : String → Option Street2)
    (car : Car2) (s : String) (h : crossed s = true) :
    (carStep2 bonusPoint time remainingTime crossed streets car).crossed s
      = true := by
  rw [carStep2]; split
  · exact h
  · exact crossStep2_crossed_mono _ _ _ _ _ _ _ h

theorem carStep2_event_marker (bonusPoint time remainingTime : Nat)
    (crossed : String → Bool) (streets : String → Option Street2)
    (car : Car2) (s : String) (q : Nat)
    (h : (carStep2 bonusPoint time remainingTime crossed streets car).event
      = some (s, q)) :
    crossed s = false ∧
    (carStep2 bonusPoint time remainingTime crossed streets car).crossed s
      = true := by
  rw [carStep2] at h ⊢
  split at h
  · exact absurd h (by simp)
  · rename_i h'
    rw [if_neg h']
    exact crossStep2_event_marker _ _ _ _ _ _ _ _ h

theorem carsLoop2_cross_count (bonusPoint time remainingTime : Nat)
    (s : String) (order : List Nat) :
    ∀ (crossed : String → Bool) (streets : String → Option Street2)
      (cars : Nat → Car2),
      (((carsLoop2 bonusPoint time remainingTime crossed streets cars
          order).events).filter (fun e => e.1 = s)).length ≤
        (if crossed s = true then 0 else 1) := by
  induction order with
  | nil =>
    intro crossed streets cars
    simp only [carsLoop2, List.filter_nil, List.length_nil]
    split <;> omega
  | cons j rest ih =>
    intro crossed streets cars
    rw [carsLoop2]
    simp only [List.filter_append, List.length_append]
    have hrest := ih (carStep2 bonusPoint time remainingTime crossed streets
        (cars j)).crossed
      (carStep2 bonusPoint time remainingTime crossed streets (cars j)).streets
      (fun i => if i = j then
        (carStep2 bonusPoint time remainingTime crossed streets (cars j)).car
        else cars i)
    match hev : (carStep2 bonusPoint time remainingTime crossed streets
        (cars j)).event with
    | none =>
      simp only [Option.toList_none, List.filter_nil, List.length_nil,
        Nat.zero_add]
      by_cases hc : crossed s = true
      · have := carStep2_crossed_mono bonusPoint time remainingTime crossed
          streets (cars j) s hc
        rw [if_pos hc]
        rw [if_pos this] at hrest
        exact hrest
      · rw [if_neg hc]
        split at hrest <;> omega
    | some e =>
      by_cases hes : e.1 = s
      · have hsq : (carStep2 bonusPoint time remainingTime crossed streets
            (cars j)).event = some (s, e.2) := by
          rw [hev, ← hes]
        have hm := carStep2_event_marker bonusPoint time remainingTime crossed
          streets (cars j) s e.2 hsq
        rw [if_neg (by rw [hm.1]; simp)]
        rw [if_pos hm.2] at hrest
        have h1 : (List.filter (fun e => decide (e.1 = s))
            (some e).toList).length ≤ 1 := by
          simpa using List.length_filter_le (fun e => decide (e.1 = s)) [e]
        omega
      · simp only [Option.toList_some, List.filter_cons]
        rw [if_neg (by simpa using hes)]
        simp only [List.filter_nil, List.length_nil, Nat.zero_add]
        by_cases hc : crossed s = true
        · have := carStep2_crossed_mono bonusPoint time remainingTime crossed
            streets (cars j) s hc
          rw [if_pos hc]
          rw [if_pos this] at hrest
          exact hrest
        · rw [if_neg hc]
          split at hrest <;> omega

/-- C3: within any single tick, at most one car crosses any given street —
for the tick loop (whose crossed marker starts freshly reset, line 175) and
for an arbitrary processing order of the cars. -/
theorem C3_single_crossing_per_tick :
    (∀ (bonusPoint time remainingTime numCars : Nat)
       (streets : String → Option Street2) (cars : Nat → Car2) (s : String),
       (((tickStep2 bonusPoint time remainingTime numCars streets
           cars).events).filter (fun e => e.1 = s)).length ≤ 1) ∧
    (∀ (bonusPoint time remainingTime : Nat) (order : List Nat)
       (streets : String → Option Street2) (cars : Nat → Car2) (s : String),
       (((carsLoop2 bonusPoint time remainingTime (fun _ => false) streets
           cars order).events).filter (fun e => e.1 = s)).length ≤ 1) := by
  constructor
  · intro bonusPoint time remainingTime numCars streets cars s
    have := carsLoop2_cross_count bonusPoint time remainingTime s
      (List.range numCars) (fun _ => false) streets cars
    simpa [tickStep2] using this
  · intro bonusPoint time remainingTime order streets cars s
    have := carsLoop2_cross_count bonusPoint time remainingTime s order
      (fun _ => false) streets cars
    simpa using this

/-! ## Queue order (C4) -/

/-- Last queuing number that crossed a street (`-1` before any crossing,
also used as the don't-care default for absent streets). -/
def lastQNum : Option Street2 → Int
  | some st => st.lastQueuingNumber
  | none => -1

/-- Queuing numbers of the crossings of street `s` among a tick's events,
in processing order. -/
def qnsOf (s : String) (events : List (String × Nat)) : List Nat :=
  (events.filter (fun e => e.1 = s)).map Prod.snd

/-- Queuing numbers of the crossings of street `s` in a full trace, in
chronological order. -/
def qnsOfTrace (s : String) (trace : List (Nat × String × Nat)) : List Nat :=
  (trace.filter (fun e => e.2.1 = s)).map (fun e => e.2.2)

theorem qnsOf_append (s : String) (a b : List (String × Nat)) :
    qnsOf s (a ++ b) = qnsOf s a ++ qnsOf s b := by
  simp [qnsOf, List.filter_append]

theorem qnsOfTrace_append (s : String) (a b : List (Nat × String × Nat)) :
    qnsOfTrace s (a ++ b) = qnsOfTrace s a ++ qnsOfTrace s b := by
  simp [qnsOfTrace, List.filter_append]

theorem qnsOfTrace_map_time (s : String) (time : Nat)
    (events : List (String × Nat)) :
    qnsOfTrace s (events.map (fun e => (time, e))) = qnsOf s events := by
  induction events with
  | nil => rfl
  | cons e rest ih =>
    simp only [List.map_cons, qnsOfTrace, qnsOf, List.filter_cons] at ih ⊢
    by_cases hs : e.1 = s
    · simp only [hs]; simpa using congrArg (List.cons e.2) ih
    · simpa [hs] using ih

theorem registerStep2_lastQNum (streets : String → Option Street2)
    (car : Car2) (s : String) :
    lastQNum ((registerStep2 streets car).1 s) = lastQNum (streets s) := by
  rw [registerStep2]; split
  · split
    · rename_i st hst
      by_cases hs : s = car.currentStreetName
      · subst hs; simp [updf, hst, lastQNum]
      · simp [updf, hs]
    · rfl
  · rfl

theorem crossStep2_lastQNum_mono (bonusPoint time remainingTime : Nat)
    (crossed : String → Bool) (streets : String → Option Street2)
    (car : Car2) (s : String) :
    lastQNum (streets s) ≤
      lastQNum ((crossStep2 bonusPoint time remainingTime crossed streets
        car).streets s) := by
  rcases crossStep2_cases bonusPoint time remainingTime crossed streets car
    with hcase | ⟨_, _, hcase⟩ | ⟨st, _, _, _, hst, _, _, hq, hcase⟩
  · rw [hcase]
  · rw [hcase]
  · rw [hcase]
    by_cases hs : s = car.currentStreetName
    · subst hs; simp only [updf_same]; rw [hst]; simp [lastQNum]; omega
    · simp [updf, hs]

theorem carStep2_lastQNum_mono (bonusPoint time remainingTime : Nat)
    (crossed : String → Bool) (streets : String → Option Street2)
    (car : Car2) (s : String) :
    lastQNum (streets s) ≤
      lastQNum ((carStep2 bonusPoint time remainingTime crossed streets
        car).streets s) := by
  rw [carStep2]; split
  · exact le_refl _
  · calc lastQNum (streets s)
        = lastQNum ((registerStep2 streets car).1 s) :=
          (registerStep2_lastQNum streets car s).symm
      _ ≤ _ := crossStep2_lastQNum_mono _ _ _ _ _ _ s

theorem carStep2_event_lastQNum (bonusPoint time remainingTime : Nat)
    (crossed : String → Bool) (streets : String → Option Street2)
    (car : Car2) (s : String) (q : Nat)
    (h : (carStep2 bonusPoint time remainingTime crossed streets car).event
      = some (s, q)) :
    lastQNum (streets s) + 1 = (q : Int) ∧
    lastQNum ((carStep2 bonusPoint time remainingTime crossed streets
      car).streets s) = (q : Int) := by
  rw [carStep2] at h ⊢
  split at h
  · exact absurd h (by simp)
  · rename_i h'
    rw [if_neg h']
    rcases crossStep2_cases bonusPoint time remainingTime crossed
        (registerStep2 streets car).1
        (moveStep2 (registerStep2 streets car).2) with
      hcase | ⟨_, _, hcase⟩ | ⟨st, h0, hne, hk, hst, hg, hc, hq, hcase⟩
    · rw [hcase] at h; exact absurd h (by simp)
    · rw [hcase] at h; exact absurd h (by simp)
    · rw [hcase] at h ⊢
      simp only [Option.some.injEq, Prod.mk.injEq] at h
      obtain ⟨h1, h2⟩ := h
      simp only [moveStep2_currentStreetName, registerStep2_currentStreetName]
        at h1 hst
      subst h1
      have hlast : lastQNum (streets car.currentStreetName) =
          st.lastQueuingNumber := by
        have := registerStep2_lastQNum streets car car.currentStreetName
        rw [hst, lastQNum] at this
        exact this.symm
      constructor
      · rw [hlast, hq]
        simp [moveStep2, registerStep2] at h2 ⊢
        omega
      · simp only [moveStep2_currentStreetName, registerStep2_currentStreetName,
          updf_same, lastQNum]
        rw [h2]

theorem carsLoop2_qns_inv (bonusPoint time remainingTime : Nat) (s : String)
    (order : List Nat) :
    ∀ (crossed : String → Bool) (streets : String → Option Street2)
      (cars : Nat → Car2) (acc : List Nat),
      List.Pairwise (fun a b => a < b) acc →
      (∀ q ∈ acc, (q : Int) ≤ lastQNum (streets s)) →
      List.Pairwise (fun a b => a < b)
        (acc ++ qnsOf s (carsLoop2 bonusPoint time remainingTime crossed
          streets cars order).events) ∧
      ∀ q ∈ acc ++ qnsOf s (carsLoop2 bonusPoint time remainingTime crossed
          streets cars order).events,
        (q : Int) ≤ lastQNum ((carsLoop2 bonusPoint time remainingTime
          crossed streets cars order).streets s) := by
  induction order with
  | nil =>
    intro crossed streets cars acc hp hb
    simpa [carsLoop2, qnsOf] using ⟨hp, hb⟩
  | cons j rest ih =>
    intro crossed streets cars acc hp hb
    rw [carsLoop2]
    simp only [qnsOf_append]
    match hev : (carStep2 bonusPoint time remainingTime crossed streets
        (cars j)).event with
    | none =>
      have hb' : ∀ q ∈ acc, (q : Int) ≤
          lastQNum ((carStep2 bonusPoint time remainingTime crossed streets
            (cars j)).streets s) := fun q hq =>
        le_trans (hb q hq)
          (carStep2_lastQNum_mono bonusPoint time remainingTime crossed
            streets (cars j) s)
      have := ih (carStep2 bonusPoint time remainingTime crossed streets
          (cars j)).crossed
        (carStep2 bonusPoint time remainingTime crossed streets (cars j)).streets
        (fun i => if i = j then
          (carStep2 bonusPoint time remainingTime crossed streets (cars j)).car
          else cars i) acc hp hb'
      simpa [hev, qnsOf] using this
    | some e =>
      by_cases hes : e.1 = s
      · have hsq : (carStep2 bonusPoint time remainingTime crossed streets
            (cars j)).event = some (s, e.2) := by rw [hev, ← hes]
        obtain ⟨hq1, hq2⟩ := carStep2_event_lastQNum bonusPoint time
          remainingTime crossed streets (cars j) s e.2 hsq
        have hp' : List.Pairwise (fun a b => a < b) (acc ++ [e.2]) := by
          rw [List.pairwise_append]
          refine ⟨hp, List.pairwise_singleton _ _, ?_⟩
          intro a ha b hbm
          have hbq : b = e.2 := by simpa using hbm
          subst hbq
          have := hb a ha
          omega
        have hb' : ∀ q ∈ acc ++ [e.2], (q : Int) ≤
            lastQNum ((carStep2 bonusPoint time remainingTime crossed streets
              (cars j)).streets s) := by
          intro q hq
          rw [hq2]
          rcases List.mem_append.mp hq with hq | hq
          · have := hb q hq; omega
          · have : q = e.2 := by simpa using hq
            omega
        have := ih (carStep2 bonusPoint time remainingTime crossed streets
            (cars j)).crossed
          (carStep2 bonusPoint time remainingTime crossed streets
            (cars j)).streets
          (fun i => if i = j then
            (carStep2 bonusPoint time remainingTime crossed streets (cars j)).car
            else cars i) (acc ++ [e.2]) hp' hb'
        rw [List.append_assoc] at this
        have hqns : qnsOf s (some e).toList = [e.2] := by
          simp [qnsOf, hes]
        rw [hqns]
        exact this
      · have hb' : ∀ q ∈ acc, (q : Int) ≤
            lastQNum ((carStep2 bonusPoint time remainingTime crossed streets
              (cars j)).streets s) := fun q hq =>
          le_trans (hb q hq)
            (carStep2_lastQNum_mono bonusPoint time remainingTime crossed
              streets (cars j) s)
        have := ih (carStep2 bonusPoint time remainingTime crossed streets
            (cars j)).crossed
          (carStep2 bonusPoint time remainingTime crossed streets
            (cars j)).streets
          (fun i => if i = j then
            (carStep2 bonusPoint time remainingTime crossed streets (cars j)).car
            else cars i) acc hp hb'
        have hqns : qnsOf s (some e).toList = [] := by
          simp [qnsOf, hes]
        rw [hqns]
        simpa using this

theorem simLoop2_qns_inv (bonusPoint numCars : Nat) (s : String) :
    ∀ (fuel time : Nat) (streets : String → Option Street2)
      (cars : Nat → Car2) (acc : List Nat),
      List.Pairwise (fun a b => a < b) acc →
      (∀ q ∈ acc, (q : Int) ≤ lastQNum (streets s)) →
      List.Pairwise (fun a b => a < b)
        (acc ++ qnsOfTrace s (simLoop2 bonusPoint numCars fuel time streets
          cars).trace) := by
  intro fuel
  induction fuel with
  | zero =>
    intro time streets cars acc hp hb
    simpa [simLoop2, qnsOfTrace] using hp
  | succ f ih =>
    intro time streets cars acc hp hb
    rw [simLoop2]
    simp only [qnsOfTrace_append, qnsOfTrace_map_time]
    obtain ⟨hp', hb'⟩ := carsLoop2_qns_inv bonusPoint time f s
      (List.range numCars) (fun _ => false) streets cars acc hp hb
    have := ih (time + 1)
      (carsLoop2 bonusPoint time f (fun _ => false) streets cars
        (List.range numCars)).streets
      (carsLoop2 bonusPoint time f (fun _ => false) streets cars
        (List.range numCars)).cars _ hp' hb'
    rw [List.append_assoc] at this
    exact this

/-- C4: among all cars ever queued on the same street, crossings happen in
strictly ascending queuing-number order over the whole run. -/
theorem C4_fifo_queue_order (bonusPoint duration numCars : Nat)
    (streets : String → Option Street2) (cars : Nat → Car2) (s : String) :
    List.Pairwise (fun a b => a < b)
      (qnsOfTrace s (simulate2 bonusPoint duration numCars streets
        cars).trace) := by
  have := simLoop2_qns_inv bonusPoint numCars s (duration + 1) 0 streets cars
    [] (List.Pairwise.nil) (by simp)
  simpa using this

/-! ## Registration timing and target queue (C5) -/

/-- C5 (amended): a car whose remaining time on its street equals `1`
before the current tick's decrement — so that it reaches `0`, not `1`,
after it — and that has at least one more street to travel is registered
during that same tick into the queue of its *current* street (it takes
that street's next sequential queuing number and the street's counter is
bumped), in the very tick in which it finishes traversing the street. -/
theorem C5_registration_current_street (bonusPoint time remainingTime : Nat)
    (crossed : String → Bool) (streets : String → Option Street2)
    (car : Car2) (st : Street2)
    (ha : car.arrived = false)
    (h1 : car.remainingTimeOnStreet = 1)
    (h2 : (car.currentStreetIdx : Int) < (car.numStreets : Int) - 1)
    (hst : streets car.currentStreetName = some st) :
    (carStep2 bonusPoint time remainingTime crossed streets car).car.queuingNumber
      = st.nextQueuingNumber ∧
    ((carStep2 bonusPoint time remainingTime crossed streets
        car).streets car.currentStreetName).map
      (fun s2 => s2.nextQueuingNumber) = some (st.nextQueuingNumber + 1) := by
  rw [carStep2, if_neg (by simp [ha])]
  have hreg : registerStep2 streets car =
      (updf streets car.currentStreetName
        (some { st with nextQueuingNumber := st.nextQueuingNumber + 1 }),
       { car with queuingNumber := st.nextQueuingNumber }) := by
    rw [registerStep2, if_pos ⟨h1, h2⟩, hst]
  rw [hreg]
  rcases crossStep2_cases bonusPoint time remainingTime crossed
      (updf streets car.currentStreetName
        (some { st with nextQueuingNumber := st.nextQueuingNumber + 1 }))
      (moveStep2 { car with queuingNumber := st.nextQueuingNumber }) with
    hcase | ⟨h0, hl, hcase⟩ | ⟨st2, h0, hne, hk, hst2, hg, hc, hq, hcase⟩ <;>
    rw [hcase]
  · refine ⟨by simp, by simp⟩
  · refine ⟨by simp, by simp⟩
  · have hname : (moveStep2 { car with queuingNumber :=
        st.nextQueuingNumber }).currentStreetName = car.currentStreetName := by
      simp
    rw [hname] at hst2
    simp only [updf_same, Option.some.injEq] at hst2
    constructor
    · simp
    · simp only [hname, updf_same]
      rw [← hst2]
      simp

/-- States of the concrete run used to refute C5 as stated: the single
sample car crosses from `a` to `b` (duration 3) at tick 0, so its remaining
time is 2 after tick 1, 1 after tick 2 and 0 after tick 3. -/
def c5state1 : TickRes2 := tickStep2 0 0 5 1 sampleStreets sampleCars

def c5state2 : TickRes2 := tickStep2 0 1 4 1 c5state1.streets c5state1.cars

def c5state3 : TickRes2 := tickStep2 0 2 3 1 c5state2.streets c5state2.cars

def c5state4 : TickRes2 := tickStep2 0 3 2 1 c5state3.streets c5state3.cars

/-- C5 as frozen is false on this run: entering tick 2 the car's remaining
time is 2 (it will reach exactly 1 after that tick's decrement) and two
more streets remain, yet during tick 2 nothing is registered anywhere (the
queue counters of `b` and `c` and the car's ticket are all unchanged), and
when registration does happen (tick 3, remaining time 1 → 0) it goes to the
queue of the *current* street `b`, never to the next street `c`. -/
theorem C5_pre_registration_counterexample :
    (c5state2.cars 0).remainingTimeOnStreet = 2 ∧
    (c5state2.cars 0).currentStreetIdx = 1 ∧
    (c5state2.cars 0).numStreets = 3 ∧
    (c5state2.cars 0).streetNames.getD 2 "" = "c" ∧
    (c5state2.cars 0).queuingNumber = 0 ∧
    ((c5state2.streets "b").map (fun st => st.nextQueuingNumber)) = some 0 ∧
    ((c5state2.streets "c").map (fun st => st.nextQueuingNumber)) = some 0 ∧
    ((c5state3.streets "b").map (fun st => st.nextQueuingNumber)) = some 0 ∧
    ((c5state3.streets "c").map (fun st => st.nextQueuingNumber)) = some 0 ∧
    (c5state3.cars 0).queuingNumber = 0 ∧
    (c5state3.cars 0).remainingTimeOnStreet = 1 ∧
    ((c5state4.streets "b").map (fun st => st.nextQueuingNumber)) = some 1 ∧
    ((c5state4.streets "c").map (fun st => st.nextQueuingNumber)) = some 0 := by
  decide

/-- Car one tick from the end of street `b` with another street to go. -/
def c5wcar : Car2 := ⟨2, ["b", "c"], 0, "b", 1, 5, false, 0, 0⟩

theorem C5_registration_current_street_witness :
    (carStep2 0 0 5 (fun _ => false) sampleStreets c5wcar).car.queuingNumber
      = Street2.nextQueuingNumber ⟨3, -1, 0, some (0, 4), 5⟩ ∧
    ((carStep2 0 0 5 (fun _ => false) sampleStreets
        c5wcar).streets c5wcar.currentStreetName).map
      (fun s2 => s2.nextQueuingNumber) =
      some (Street2.nextQueuingNumber ⟨3, -1, 0, some (0, 4), 5⟩ + 1) :=
  C5_registration_current_street 0 0 5 (fun _ => false) sampleStreets c5wcar
    ⟨3, -1, 0, some (0, 4), 5⟩ rfl rfl (by decide) (by decide)

/-! ## Final-tick behaviour (C6) -/

/-- C6: on the final tick (`remainingTime = 0`), a car whose remaining time
on its last route street reaches `0` arrives with score `bonus + 0` and
commute time equal to that tick, whereas a car finishing a non-final street
then never attempts to cross (no crossing event) and ends the run — whose
remaining tick count is exhausted — not arrived. -/
theorem C6_final_tick :
    (∀ (bonusPoint time : Nat) (crossed : String → Bool)
       (streets : String → Option Street2) (car : Car2),
       car.arrived = false → car.remainingTimeOnStreet ≤ 1 →
       (car.currentStreetIdx : Int) = (car.numStreets : Int) - 1 →
       (carStep2 bonusPoint time 0 crossed streets car).car.arrived = true ∧
       (carStep2 bonusPoint time 0 crossed streets car).car.score =
         bonusPoint + 0 ∧
       (carStep2 bonusPoint time 0 crossed streets car).car.commuteTime =
         time) ∧
    (∀ (bonusPoint time : Nat) (crossed : String → Bool)
       (streets : String → Option Street2) (car : Car2),
       car.arrived = false → car.remainingTimeOnStreet ≤ 1 →
       (car.currentStreetIdx : Int) < (car.numStreets : Int) - 1 →
       (carStep2 bonusPoint time 0 crossed streets car).car.arrived = false ∧
       (carStep2 bonusPoint time 0 crossed streets car).event = none ∧
       (carStep2 bonusPoint time 0 crossed streets car).car.currentStreetIdx
         = car.currentStreetIdx ∧
       (carStep2 bonusPoint time 0 crossed streets car).car.remainingTimeOnStreet
         = 0) ∧
    (∀ (bonusPoint numCars time : Nat) (streets : String → Option Street2)
       (cars : Nat → Car2),
       simLoop2 bonusPoint numCars 0 time streets cars = ⟨streets, cars, []⟩) := by
  refine ⟨?_, ?_, fun _ _ _ _ _ => rfl⟩
  · intro bonusPoint time crossed streets car ha hr hlast
    rw [carStep2, if_neg (by simp [ha])]
    have hreg : registerStep2 streets car = (streets, car) := by
      rw [registerStep2, if_neg]
      rintro ⟨-, h2⟩
      omega
    rw [hreg]
    rw [crossStep2, if_pos (by simp; omega), if_pos (by simpa using hlast)]
    exact ⟨rfl, rfl, rfl⟩
  · intro bonusPoint time crossed streets car ha hr hlt
    rw [carStep2, if_neg (by simp [ha])]
    rw [crossStep2, if_pos (by simp; omega),
      if_neg (by simp only [moveStep2_currentStreetIdx, moveStep2_numStreets,
        registerStep2_currentStreetIdx, registerStep2_numStreets]; omega),
      if_pos rfl]
    refine ⟨by simp [ha], rfl, by simp, ?_⟩
    simp
    omega

def c6carA : Car2 := ⟨1, ["a"], 0, "a", 0, 0, false, 0, 0⟩

def c6carB : Car2 := ⟨2, ["a", "b"], 0, "a", 1, 0, false, 0, 0⟩

theorem C6_final_tick_witness :
    ((carStep2 7 5 0 (fun _ => false) sampleStreets c6carA).car.arrived = true ∧
      (carStep2 7 5 0 (fun _ => false) sampleStreets c6carA).car.score = 7 + 0 ∧
      (carStep2 7 5 0 (fun _ => false) sampleStreets c6carA).car.commuteTime
        = 5) ∧
    ((carStep2 7 5 0 (fun _ => false) sampleStreets c6carB).car.arrived
        = false ∧
      (carStep2 7 5 0 (fun _ => false) sampleStreets c6carB).event = none ∧
      (carStep2 7 5 0 (fun _ => false) sampleStreets c6carB).car.currentStreetIdx
        = c6carB.currentStreetIdx ∧
      (carStep2 7 5 0 (fun _ => false) sampleStreets
        c6carB).car.remainingTimeOnStreet = 0) :=
  ⟨C6_final_tick.1 7 5 (fun _ => false) sampleStreets c6carA rfl (by decide)
      (by decide),
   C6_final_tick.2.1 7 5 (fun _ => false) sampleStreets c6carB rfl (by decide)
      (by decide)⟩

/-! ## Car state invariants (C10) -/

theorem carStep2_arrived_id (bonusPoint time remainingTime : Nat)
    (crossed : String → Bool) (streets : String → Option Street2)
    (car : Car2) (h : car.arrived = true) :
    carStep2 bonusPoint time remainingTime crossed streets car =
      ⟨crossed, streets, car, none⟩ := by
  rw [carStep2, if_pos h]

theorem carStep2_idx_bound (bonusPoint time remainingTime : Nat)
    (crossed : String → Bool) (streets : String → Option Street2)
    (car : Car2) (h : car.currentStreetIdx + 1 ≤ car.numStreets) :
    (carStep2 bonusPoint time remainingTime crossed streets
      car).car.currentStreetIdx + 1 ≤
    (carStep2 bonusPoint time remainingTime crossed streets
      car).car.numStreets := by
  by_cases ha : car.arrived = true
  · rw [carStep2_arrived_id _ _ _ _ _ _ ha]; exact h
  · rw [carStep2, if_neg ha]
    rcases crossStep2_cases bonusPoint time remainingTime crossed
        (registerStep2 streets car).1
        (moveStep2 (registerStep2 streets car).2) with
      hcase | ⟨h0, hl, hcase⟩ | ⟨st, h0, hne, hk, hst, hg, hc, hq, hcase⟩ <;>
      rw [hcase] <;> simp only [moveStep2_currentStreetIdx,
        moveStep2_numStreets, registerStep2_currentStreetIdx,
        registerStep2_numStreets]
    · exact h
    · exact h
    · simp only [moveStep2_currentStreetIdx, moveStep2_numStreets,
        registerStep2_currentStreetIdx, registerStep2_numStreets] at hne
      omega

theorem carsLoop2_arrived_frozen (bonusPoint time remainingTime : Nat)
    (order : List Nat) :
    ∀ (crossed : String → Bool) (streets : String → Option Street2)
      (cars : Nat → Car2) (i : Nat), (cars i).arrived = true →
      (carsLoop2 bonusPoint time remainingTime crossed streets cars
        order).cars i = cars i := by
  induction order with
  | nil => intro crossed streets cars i _; rfl
  | cons j rest ih =>
    intro crossed streets cars i hi
    rw [carsLoop2]
    by_cases hij : i = j
    · subst hij
      have hid := carStep2_arrived_id bonusPoint time remainingTime crossed
        streets (cars i) hi
      have := ih (carStep2 bonusPoint time remainingTime crossed streets
          (cars i)).crossed
        (carStep2 bonusPoint time remainingTime crossed streets (cars i)).streets
        (fun m => if m = i then
          (carStep2 bonusPoint time remainingTime crossed streets (cars i)).car
          else cars m) i (by rw [hid]; simpa using hi)
      rw [this, hid]
      simp
    · have := ih (carStep2 bonusPoint time remainingTime crossed streets
          (cars j)).crossed
        (carStep2 bonusPoint time remainingTime crossed streets (cars j)).streets
        (fun m => if m = j then
          (carStep2 bonusPoint time remainingTime crossed streets (cars j)).car
          else cars m) i (by simpa [hij] using hi)
      rw [this]
      simp [hij]

theorem simLoop2_arrived_frozen (bonusPoint numCars : Nat) :
    ∀ (fuel time : Nat) (streets : String → Option Street2)
      (cars : Nat → Car2) (i : Nat), (cars i).arrived = true →
      (simLoop2 bonusPoint numCars fuel time streets cars).cars i = cars i := by
  intro fuel
  induction fuel with
  | zero => intro time streets cars i _; rfl
  | succ f ih =>
    intro time streets cars i hi
    have htick := carsLoop2_arrived_frozen bonusPoint time f
      (List.range numCars) (fun _ => false) streets cars i hi
    have hrec := ih (time + 1)
      (carsLoop2 bonusPoint time f (fun _ => false) streets cars
        (List.range numCars)).streets
      (carsLoop2 bonusPoint time f (fun _ => false) streets cars
        (List.range numCars)).cars i (by rw [htick]; exact hi)
    exact hrec.trans htick

theorem carsLoop2_idx_bound (bonusPoint time remainingTime : Nat)
    (order : List Nat) :
    ∀ (crossed : String → Bool) (streets : String → Option Street2)
      (cars : Nat → Car2),
      (∀ i, (cars i).currentStreetIdx + 1 ≤ (cars i).numStreets) →
      ∀ i, ((carsLoop2 bonusPoint time remainingTime crossed streets cars
        order).cars i).currentStreetIdx + 1 ≤
        ((carsLoop2 bonusPoint time remainingTime crossed streets cars
          order).cars i).numStreets := by
  induction order with
  | nil => intro crossed streets cars h i; exact h i
  | cons j rest ih =>
    intro crossed streets cars h
    rw [carsLoop2]
    apply ih
    intro i
    by_cases hij : i = j
    · subst hij
      simp only [eq_self_iff_true, if_true]
      exact carStep2_idx_bound bonusPoint time remainingTime crossed streets
        (cars i) (h i)
    · simp only [if_neg hij]
      exact h i

theorem simLoop2_idx_bound (bonusPoint numCars : Nat) :
    ∀ (fuel time : Nat) (streets : String → Option Street2)
      (cars : Nat → Car2),
      (∀ i, (cars i).currentStreetIdx + 1 ≤ (cars i).numStreets) →
      ∀ i, ((simLoop2 bonusPoint numCars fuel time streets
        cars).cars i).currentStreetIdx + 1 ≤
        ((simLoop2 bonusPoint numCars fuel time streets
          cars).cars i).numStreets := by
  intro fuel
  induction fuel with
  | zero => intro time streets cars h i; exact h i
  | succ f ih =>
    intro time streets cars h
    rw [simLoop2]
    exact ih (time + 1) _ _
      (carsLoop2_idx_bound bonusPoint time f (List.range numCars)
        (fun _ => false) streets cars h)

/-- C10: the route index stays within `[0, numStreets - 1]` throughout the
simulation (remaining time is a natural number, hence nonnegative by type),
and once a car's arrived flag is set the entire car record — score, commute
time, route index, remaining time — is never modified again. -/
theorem C10_state_invariants :
    (∀ (bonusPoint numCars fuel time : Nat)
       (streets : String → Option Street2) (cars : Nat → Car2) (i : Nat),
       (cars i).arrived = true →
       (simLoop2 bonusPoint numCars fuel time streets cars).cars i = cars i) ∧
    (∀ (bonusPoint duration numCars : Nat)
       (streets : String → Option Street2) (cars : Nat → Car2),
       (∀ i, (cars i).currentStreetIdx + 1 ≤ (cars i).numStreets) →
       ∀ i, ((simulate2 bonusPoint duration numCars streets
         cars).cars i).currentStreetIdx + 1 ≤
         ((simulate2 bonusPoint duration numCars streets
           cars).cars i).numStreets) :=
  ⟨fun bonusPoint numCars fuel time streets cars i hi =>
    simLoop2_arrived_frozen bonusPoint numCars fuel time streets cars i hi,
   fun bonusPoint duration numCars streets cars h i =>
    simLoop2_idx_bound bonusPoint numCars (duration + 1) 0 streets cars h i⟩

def c10car : Car2 := ⟨1, ["a"], 0, "a", 0, 3, true, 7, 2⟩

theorem C10_state_invariants_witness :
    (simLoop2 0 1 3 0 sampleStreets (fun _ => c10car)).cars 0 = c10car ∧
    (((simulate2 0 5 1 sampleStreets sampleCars).cars 0).currentStreetIdx + 1
      ≤ ((simulate2 0 5 1 sampleStreets sampleCars).cars 0).numStreets) :=
  ⟨C10_state_invariants.1 0 1 3 0 sampleStreets (fun _ => c10car) 0 rfl,
   C10_state_invariants.2 0 5 1 sampleStreets sampleCars
     (fun _ => by norm_num [sampleCars, sampleCar]) 0⟩

/-! ## The submission validator (C8, C9)

Model of `parseSubmittedDataSet` of `part_001` (lines 86–168; `index.js`
lines 85–161 differs only in accumulating `totalCycles` per street entry
instead of per intersection, which yields the same sum).  The submission
text is taken after splitting on newlines, as the list of its lines; the
first line is the declared number of scheduled intersections.  Failures are
the thrown validation errors, plus `typeError` for the uncaught JavaScript
`TypeError` raised when `parseLine` is applied to a missing (`undefined`)
street-schedule line. -/

inductive SubError where
  | truncatedSubmission
  | malformedCount
  | duplicateIntersectionSchedule
  | streetIntersectionMismatch
  | malformedGreenDuration
  | greenDurationOutOfRange
  | typeError
deriving Repr, DecidableEq

/-- Space-splitting of a line into tokens, as `rawLine.split(' ')` in
`parseLine` (`utils.js` line 60): separators delimit possibly empty
tokens, and the empty string yields one empty token. -/
def splitAuxChar (sep : Char) : List Char → List Char → List String
  | [], cur => [String.mk cur.reverse]
  | c :: rest, cur =>
    if c = sep then String.mk cur.reverse :: splitAuxChar sep rest []
    else splitAuxChar sep rest (c :: cur)

def splitOnChar (sep : Char) (s : String) : List String :=
  splitAuxChar sep s.data []

/-- Value of a digit string (most significant digit first); the empty
string has value `0`, any non-digit character poisons the whole token. -/
def digitsVal : List Char → Option Nat
  | [] => some 0
  | c :: rest =>
    if c.isDigit then
      (digitsVal rest).map (fun v => (c.toNat - 48) * 10 ^ rest.length + v)
    else none

/-- JavaScript numeric coercion `+value` (with `isNaN(value)` being
`jsToNum value = none`), restricted to the token shapes the validator
meets here: the empty string coerces to `0`, a digit string to its value,
anything else to `NaN`. -/
def jsToNum (s : String) : Option Nat :=
  digitsVal s.data

/-- Validation accumulator: `numSchedules` and `totalCycles` as in the
source, plus ghost lists of the accepted per-intersection cycle lengths
and of every accepted green duration. -/
structure SubAccum where
  numSchedules : Nat
  totalCycles : Nat
  cycles : List Nat
  greens : List Nat
deriving Repr, DecidableEq

/-- Result of a successful validation: the two averages reported by the
insights (`greenCycles = totalCycles / numSchedules` computed first, then
`totalCycles / numIntersections`, lines 166–167), plus the ghost data. -/
structure SubResult where
  greenCycles : ℚ
  totalCycles : ℚ
  numSchedules : Nat
  cycles : List Nat
  greens : List Nat
deriving Repr, DecidableEq

/-- Inner loop over one intersection's street schedules (lines 122–156):
schedule-line lookup (a missing line is the JavaScript `TypeError` in
`parseLine`), street/intersection mismatch check, green-duration numeric
and range checks, then window accumulation. -/
def parseSchedLoop (streetEnds : String → Option Nat) (duration : Nat)
    (lines : List String) (idNum : Option Nat) :
    Nat → Nat → Nat → List Nat → Except SubError (Nat × List Nat)
  | 0, _, lastScheduleTime, greens => .ok (lastScheduleTime, greens)
  | j + 1, idx, lastScheduleTime, greens =>
    match lines.get? idx with
    | none => .error .typeError
    | some line =>
      if (streetEnds ((splitOnChar ' ' line).getD 0 "")).isSome ∧
          streetEnds ((splitOnChar ' ' line).getD 0 "") ≠ idNum then
        .error .streetIntersectionMismatch
      else
        match ((splitOnChar ' ' line).get? 1).bind jsToNum with
        | none => .error .malformedGreenDuration
        | some schedule =>
          if schedule < 1 ∨ schedule > duration then
            .error .greenDurationOutOfRange
          else
            parseSchedLoop streetEnds duration lines idNum j (idx + 1)
              (lastScheduleTime + schedule) (greens ++ [schedule])

/-- Outer loop over the declared intersections (lines 93–164): the
intersection id sits at line `currentLine + i`, its street count right
below; a missing count line is the thrown premature-EOF error, a
non-numeric one the invalid-count error, a repeated id the duplicate
error. -/
def parseSubLoop (streetEnds : String → Option Nat) (duration : Nat)
    (lines : List String) :
    Nat → Nat → Nat → List String → SubAccum → Except SubError SubAccum
  | 0, _, _, _, acc => .ok acc
  | a + 1, i, currentLine, seen, acc =>
    match lines.get? (currentLine + i + 1) with
    | none => .error .truncatedSubmission
    | some countLine =>
      match jsToNum countLine with
      | none => .error .malformedCount
      | some numIncomingStreets =>
        if lines.getD (currentLine + i) "" ∈ seen then
          .error .duplicateIntersectionSchedule
        else
          match parseSchedLoop streetEnds duration lines
              (jsToNum (lines.getD (currentLine + i) "")) numIncomingStreets
              (currentLine + i + 2) 0 [] with
          | .error e => .error e
          | .ok (lastScheduleTime, greens1) =>
            parseSubLoop streetEnds duration lines a (i + 1)
              (currentLine + numIncomingStreets + 1)
              (seen ++ [lines.getD (currentLine + i) ""])
              ⟨acc.numSchedules + numIncomingStreets,
               acc.totalCycles + lastScheduleTime,
               acc.cycles ++ [lastScheduleTime],
               acc.greens ++ greens1⟩

/-- Whole validator: `streetEnds` maps an existing street name to its end
intersection, `duration` and `numIntersections` come from the parsed
dataset (the division on line 167 uses the dataset's intersection count,
not the submission's header). -/
def parseSubmittedDataSet (streetEnds : String → Option Nat)
    (duration numIntersections : Nat) (data : List String) :
    Except SubError SubResult :=
  match parseSubLoop streetEnds duration data.tail
      ((jsToNum (data.headD "")).getD 0) 0 0 [] ⟨0, 0, [], []⟩ with
  | .error e => .error e
  | .ok acc =>
    .ok ⟨(acc.totalCycles : ℚ) / (acc.numSchedules : ℚ),
         (acc.totalCycles : ℚ) / (numIntersections : ℚ),
         acc.numSchedules, acc.cycles, acc.greens⟩

/-- Flow of `evaluate` (lines 289–295): validation runs strictly before the
engine; a validation error aborts the run and no simulation happens.  The
compiled windows live inside `streets` here, so the engine only needs the
city state. -/
def evaluateModel (bonusPoint duration numIntersections numCars : Nat)
    (streetEnds : String → Option Nat)
    (streets : String → Option Street2) (cars : Nat → Car2)
    (subLines : List String) : Except SubError ((Nat → Car2) × SubResult) :=
  match parseSubmittedDataSet streetEnds duration numIntersections
      subLines with
  | .error e => .error e
  | .ok res =>
    .ok ((simulate2 bonusPoint duration numCars streets cars).cars, res)

theorem parseSchedLoop_spec (streetEnds : String → Option Nat)
    (duration : Nat) (lines : List String) (idNum : Option Nat) :
    ∀ (j idx lastScheduleTime : Nat) (greens res1 : List Nat) (lst1 : Nat),
      parseSchedLoop streetEnds duration lines idNum j idx lastScheduleTime
        greens = .ok (lst1, res1) →
      ∃ gs, res1 = greens ++ gs ∧ lst1 = lastScheduleTime + gs.sum ∧
        gs.length = j := by
  intro j
  induction j with
  | zero =>
    intro idx lastScheduleTime greens res1 lst1 h
    rw [parseSchedLoop] at h
    simp only [Except.ok.injEq, Prod.mk.injEq] at h
    exact ⟨[], by rw [← h.2]; simp, by rw [List.sum_nil, Nat.add_zero, h.1],
      rfl⟩
  | succ k ih =>
    intro idx lastScheduleTime greens res1 lst1 h
    rw [parseSchedLoop] at h
    split at h
    · exact absurd h (by simp)
    · split at h
      · exact absurd h (by simp)
      · split at h
        · exact absurd h (by simp)
        · rename_i schedule heq
          split at h
          · exact absurd h (by simp)
          · obtain ⟨gs, hg, hl, hlen⟩ := ih _ _ _ _ _ h
            refine ⟨schedule :: gs, ?_, ?_, by simp [hlen]⟩
            · rw [hg]; simp
            · rw [hl]; simp; omega

theorem parseSubLoop_spec (streetEnds : String → Option Nat)
    (duration : Nat) (lines : List String) :
    ∀ (a i currentLine : Nat) (seen : List String) (acc res : SubAccum),
      parseSubLoop streetEnds duration lines a i currentLine seen acc =
        .ok res →
      ∃ cy gs, res.cycles = acc.cycles ++ cy ∧ res.greens = acc.greens ++ gs ∧
        res.totalCycles = acc.totalCycles + gs.sum ∧
        res.numSchedules = acc.numSchedules + gs.length ∧
        cy.sum = gs.sum := by
  intro a
  induction a with
  | zero =>
    intro i currentLine seen acc res h
    rw [parseSubLoop] at h
    simp only [Except.ok.injEq] at h
    subst h
    exact ⟨[], [], by simp, by simp, by simp, by simp, rfl⟩
  | succ k ih =>
    intro i currentLine seen acc res h
    rw [parseSubLoop] at h
    split at h
    · exact absurd h (by simp)
    · split at h
      · exact absurd h (by simp)
      · split at h
        · exact absurd h (by simp)
        · split at h
          · exact absurd h (by simp)
          · rename_i numIncomingStreets hcnt lastScheduleTime greens1 hinner
            obtain ⟨gsIn, hgIn, hlIn, hlenIn⟩ :=
              parseSchedLoop_spec streetEnds duration lines _ _ _ _ _ _ _
                hinner
            obtain ⟨cy, gs, hc, hg, ht, hn, hsum⟩ := ih _ _ _ _ _ h
            dsimp only at hc hg ht hn
            simp only [List.nil_append] at hgIn
            refine ⟨lastScheduleTime :: cy, gsIn ++ gs, ?_, ?_, ?_, ?_, ?_⟩
            · rw [hc]; simp
            · rw [hg, hgIn]; simp
            · rw [ht, hlIn, List.sum_append]; omega
            · rw [hn, List.length_append, ← hlenIn]; omega
            · rw [List.sum_cons, List.sum_append, hlIn, hsum]; omega

/-- C8 (amended): after a successful validation, the reported average
green duration is the sum of all accepted green durations divided by the
number of scheduled street entries, while the reported average cycle
length is the sum of the scheduled intersections' cycle lengths divided by
the *dataset's* total intersection count (`dataset.simulation.numIntersections`,
line 167), not by the number of intersections the submission schedules. -/
theorem C8_reported_averages (streetEnds : String → Option Nat)
    (duration numIntersections : Nat) (data : List String) (res : SubResult)
    (h : parseSubmittedDataSet streetEnds duration numIntersections data =
      .ok res) :
    res.numSchedules = res.greens.length ∧
    res.cycles.sum = res.greens.sum ∧
    res.greenCycles = (res.greens.sum : ℚ) / (res.greens.length : ℚ) ∧
    res.totalCycles = (res.cycles.sum : ℚ) / (numIntersections : ℚ) := by
  rw [parseSubmittedDataSet] at h
  split at h
  · exact absurd h (by simp)
  · rename_i acc hacc
    obtain ⟨cy, gs, hc, hg, ht, hn, hsum⟩ :=
      parseSubLoop_spec streetEnds duration data.tail _ _ _ _ _ _ hacc
    simp only [List.nil_append] at hc hg
    simp only [Except.ok.injEq] at h
    subst h
    simp only [hc, hg, ht, hn]
    refine ⟨by simp, by simpa using hsum, ?_, ?_⟩
    · norm_num
    · rw [hsum]
      norm_num

def c8ends : String → Option Nat := fun s => if s = "x" then some 7 else none

/-- C8 as frozen is false: a submission scheduling a single intersection
(cycle length 4, one street entry) against a dataset with two
intersections reports an average cycle length of `4 / 2 = 2` (division by
the dataset's intersection count), not `4 / 1 = 4` as the cycle-length sum
divided by the number of *scheduled* intersections would give. -/
theorem C8_reported_averages_counterexample :
    parseSubmittedDataSet c8ends 10 2 ["1", "7", "1", "x 4"] =
      .ok ⟨((4 : Nat) : ℚ) / ((1 : Nat) : ℚ), ((4 : Nat) : ℚ) / ((2 : Nat) : ℚ),
        1, [4], [4]⟩ ∧
    ((4 : Nat) : ℚ) / ((2 : Nat) : ℚ) ≠ ((4 : Nat) : ℚ) / ((1 : Nat) : ℚ) := by
  constructor
  · rfl
  · norm_num

theorem C8_reported_averages_witness :
    SubResult.numSchedules ⟨((4 : Nat) : ℚ) / ((1 : Nat) : ℚ),
        ((4 : Nat) : ℚ) / ((2 : Nat) : ℚ), 1, [4], [4]⟩ =
      (SubResult.greens ⟨((4 : Nat) : ℚ) / ((1 : Nat) : ℚ),
        ((4 : Nat) : ℚ) / ((2 : Nat) : ℚ), 1, [4], [4]⟩).length ∧
    (SubResult.cycles ⟨((4 : Nat) : ℚ) / ((1 : Nat) : ℚ),
        ((4 : Nat) : ℚ) / ((2 : Nat) : ℚ), 1, [4], [4]⟩).sum =
      (SubResult.greens ⟨((4 : Nat) : ℚ) / ((1 : Nat) : ℚ),
        ((4 : Nat) : ℚ) / ((2 : Nat) : ℚ), 1, [4], [4]⟩).sum ∧
    SubResult.greenCycles ⟨((4 : Nat) : ℚ) / ((1 : Nat) : ℚ),
        ((4 : Nat) : ℚ) / ((2 : Nat) : ℚ), 1, [4], [4]⟩ =
      ((SubResult.greens ⟨((4 : Nat) : ℚ) / ((1 : Nat) : ℚ),
        ((4 : Nat) : ℚ) / ((2 : Nat) : ℚ), 1, [4], [4]⟩).sum : ℚ) /
        ((SubResult.greens ⟨((4 : Nat) : ℚ) / ((1 : Nat) : ℚ),
          ((4 : Nat) : ℚ) / ((2 : Nat) : ℚ), 1, [4], [4]⟩).length : ℚ) ∧
    SubResult.totalCycles ⟨((4 : Nat) : ℚ) / ((1 : Nat) : ℚ),
        ((4 : Nat) : ℚ) / ((2 : Nat) : ℚ), 1, [4], [4]⟩ =
      ((SubResult.cycles ⟨((4 : Nat) : ℚ) / ((1 : Nat) : ℚ),
        ((4 : Nat) : ℚ) / ((2 : Nat) : ℚ), 1, [4], [4]⟩).sum : ℚ) /
        ((2 : Nat) : ℚ) :=
  C8_reported_averages c8ends 10 2 ["1", "7", "1", "x 4"]
    ⟨((4 : Nat) : ℚ) / ((1 : Nat) : ℚ), ((4 : Nat) : ℚ) / ((2 : Nat) : ℚ),
      1, [4], [4]⟩ (by rfl)

/-- C9 (amended): a missing intersection-header line (the street-count
line of a declared intersection is beyond the end of the file) makes
validation fail with the premature-EOF `TruncatedSubmission` error, and
any validation error reaches the caller before the engine runs, so the
simulation never executes.  A submission that runs out of lines inside a
street-schedule block instead fails with the uncaught `TypeError` of
`parseLine(undefined)` — see the counterexample. -/
theorem C9_truncation_handling :
    (∀ (streetEnds : String → Option Nat) (duration : Nat)
       (lines : List String) (a i currentLine : Nat) (seen : List String)
       (acc : SubAccum),
       lines.get? (currentLine + i + 1) = none →
       parseSubLoop streetEnds duration lines (a + 1) i currentLine seen acc
         = .error .truncatedSubmission) ∧
    (∀ (bonusPoint duration numIntersections numCars : Nat)
       (streetEnds : String → Option Nat)
       (streets : String → Option Street2) (cars : Nat → Car2)
       (subLines : List String) (e : SubError),
       parseSubmittedDataSet streetEnds duration numIntersections subLines =
         .error e →
       evaluateModel bonusPoint duration numIntersections numCars streetEnds
         streets cars subLines = .error e) := by
  constructor
  · intro streetEnds duration lines a i currentLine seen acc h
    rw [parseSubLoop, h]
  · intro bonusPoint duration numIntersections numCars streetEnds streets
      cars subLines e h
    rw [evaluateModel, h]

def c9ends : String → Option Nat := fun s => if s = "x" then some 5 else none

/-- C9 as frozen is false: the submission `["1", "5", "2", "x 1"]` declares
one intersection with two scheduled streets but supplies only one schedule
line — fewer lines than required — yet validation fails with the uncaught
`TypeError` of `parseLine(undefined)` (source line 123), not with the
`TruncatedSubmission` error, which only guards the intersection-header
count line (source lines 97–102). -/
theorem C9_truncation_handling_counterexample :
    parseSubmittedDataSet c9ends 5 1 ["1", "5", "2", "x 1"] =
      .error .typeError ∧
    SubError.typeError ≠ SubError.truncatedSubmission := by
  exact ⟨by rfl, by simp⟩

theorem C9_truncation_handling_witness :
    parseSubLoop c9ends 5 ["5"] 1 0 0 [] ⟨0, 0, [], []⟩ =
      .error .truncatedSubmission ∧
    evaluateModel 0 5 1 1 c9ends sampleStreets sampleCars
      ["1", "5", "2", "x 1"] = .error .typeError :=
  ⟨C9_truncation_handling.1 c9ends 5 ["5"] 0 0 0 [] ⟨0, 0, [], []⟩ (by rfl),
   C9_truncation_handling.2 0 5 1 1 c9ends sampleStreets sampleCars
     ["1", "5", "2", "x 1"] .typeError (by rfl)⟩

/-! ## The FIFO-array engine of `src/index.js` (C7)

Embedding of the historical variant: each street keeps an explicit
`carIdQueue` of car indices, crossing requires `carIdQueue[0] === i` and
shifts the head.  The green-window data is stored per street: validation
guarantees that the lookup `intersectionSchedulesById[end][streetName]`
(lines 206–208) only ever hits the window compiled for that street and the
cycle length of its own end intersection, so the two-level map collapses to
per-street fields exactly as in `part_001`. -/

structure Street1 where
  duration : Nat
  carIdQueue : List Nat
  schedule : Option (Nat × Nat)
  scheduledTimeWindow : Nat
deriving Repr, DecidableEq

/-- Car record of `index.js`: no cached street name and no ticket. -/
structure Car1 where
  numStreets : Nat
  streetNames : List String
  currentStreetIdx : Nat
  remainingTimeOnStreet : Nat
  arrived : Bool
  score : Nat
  commuteTime : Nat
deriving Repr, DecidableEq

structure CarRes1 where
  crossed : String → Bool
  streets : String → Option Street1
  car : Car1

/-- Lines 177–184 of `index.js`: the car index is pushed on the current
street's queue one decrement before the remaining time reaches zero. -/
def registerStep1 (streets : String → Option Street1) (i : Nat)
    (car : Car1) : String → Option Street1 :=
  if car.remainingTimeOnStreet = 1 ∧
      (car.currentStreetIdx : Int) < (car.numStreets : Int) - 1 then
    match streets (car.streetNames.getD car.currentStreetIdx "") with
    | some st =>
      updf streets (car.streetNames.getD car.currentStreetIdx "")
        (some { st with carIdQueue := st.carIdQueue ++ [i] })
    | none => streets
  else streets

/-- Lines 186–188 of `index.js`. -/
def moveStep1 (car : Car1) : Car1 :=
  if car.remainingTimeOnStreet > 0 then
    { car with remainingTimeOnStreet := car.remainingTimeOnStreet - 1 }
  else car

/-- Green-light test of lines 204–211 of `index.js`. -/
def isTrafficLightGreen1 (time : Nat) (st : Street1) : Bool :=
  match st.schedule with
  | some (gte, lte) =>
    decide (gte ≤ time % st.scheduledTimeWindow ∧
      time % st.scheduledTimeWindow ≤ lte)
  | none => false

/-- Lines 190–229 of `index.js`: arrival, final-tick stall, or crossing
guarded by the light, the per-tick marker and `carIdQueue[0] === i`;
a successful crossing shifts the queue head. -/
def crossStep1 (bonusPoint time remainingTime : Nat)
    (crossed : String → Bool) (streets : String → Option Street1)
    (i : Nat) (car : Car1) : CarRes1 :=
  if car.remainingTimeOnStreet = 0 then
    if (car.currentStreetIdx : Int) = (car.numStreets : Int) - 1 then
      ⟨crossed, streets,
       { car with arrived := true, score := bonusPoint + remainingTime,
                  commuteTime := time }⟩
    else if remainingTime = 0 then ⟨crossed, streets, car⟩
    else
      match streets (car.streetNames.getD car.currentStreetIdx "") with
      | none => ⟨crossed, streets, car⟩
      | some st =>
        if isTrafficLightGreen1 time st = false ∨
            crossed (car.streetNames.getD car.currentStreetIdx "") = true ∨
            st.carIdQueue.head? ≠ some i then
          ⟨crossed, streets, car⟩
        else
          let streets2 := updf streets
            (car.streetNames.getD car.currentStreetIdx "")
            (some { st with carIdQueue := st.carIdQueue.tail })
          let nextName := car.streetNames.getD (car.currentStreetIdx + 1) ""
          let nextDuration :=
            match streets2 nextName with
            | some stNext => stNext.duration
            | none => 0
          ⟨updf crossed (car.streetNames.getD car.currentStreetIdx "") true,
           streets2,
           { car with currentStreetIdx := car.currentStreetIdx + 1,
                      remainingTimeOnStreet := nextDuration }⟩
  else ⟨crossed, streets, car⟩

/-- One car's processing for one tick (lines 170–229 of `index.js`). -/
def carStep1 (bonusPoint time remainingTime : Nat)
    (crossed : String → Bool) (streets : String → Option Street1)
    (i : Nat) (car : Car1) : CarRes1 :=
  if car.arrived then ⟨crossed, streets, car⟩
  else
    crossStep1 bonusPoint time remainingTime crossed
      (registerStep1 streets i car) i (moveStep1 car)

structure TickRes1 where
  crossed : String → Bool
  streets : String → Option Street1
  cars : Nat → Car1

def carsLoop1 (bonusPoint time remainingTime : Nat) :
    (String → Bool) → (String → Option Street1) → (Nat → Car1) →
    List Nat → TickRes1
  | crossed, streets, cars, [] => ⟨crossed, streets, cars⟩
  | crossed, streets, cars, i :: rest =>
    let r := carStep1 bonusPoint time remainingTime crossed streets i (cars i)
    carsLoop1 bonusPoint time remainingTime r.crossed r.streets
      (fun j => if j = i then r.car else cars j) rest

def tickStep1 (bonusPoint time remainingTime numCars : Nat)
    (streets : String → Option Street1) (cars : Nat → Car1) : TickRes1 :=
  carsLoop1 bonusPoint time remainingTime (fun _ => false) streets cars
    (List.range numCars)

structure SimRes1 where
  streets : String → Option Street1
  cars : Nat → Car1

/-- Tick loop of lines 163–234 of `index.js`. -/
def simLoop1 (bonusPoint numCars : Nat) :
    Nat → Nat → (String → Option Street1) → (Nat → Car1) → SimRes1
  | 0, _, streets, cars => ⟨streets, cars⟩
  | fuel + 1, time, streets, cars =>
    let r := tickStep1 bonusPoint time fuel numCars streets cars
    simLoop1 bonusPoint numCars fuel (time + 1) r.streets r.cars

def simulate1 (bonusPoint duration numCars : Nat)
    (streets : String → Option Street1) (cars : Nat → Car1) : SimRes1 :=
  simLoop1 bonusPoint numCars (duration + 1) 0 streets cars

/-! ## Coupling the two engines -/

/-- The fields shared by the two car representations agree. -/
def carAgrees (c1 : Car1) (c2 : Car2) : Prop :=
  c1.numStreets = c2.numStreets ∧ c1.streetNames = c2.streetNames ∧
  c1.currentStreetIdx = c2.currentStreetIdx ∧
  c1.remainingTimeOnStreet = c2.remainingTimeOnStreet ∧
  c1.arrived = c2.arrived ∧ c1.score = c2.score ∧
  c1.commuteTime = c2.commuteTime

/-- The static street data agrees and the virtual queue spans exactly the
physical queue: `nextQueuingNumber = lastQueuingNumber + 1 + length`. -/
def streetAgrees (st1 : Street1) (st2 : Street2) : Prop :=
  st1.duration = st2.duration ∧ st1.schedule = st2.schedule ∧
  st1.scheduledTimeWindow = st2.scheduledTimeWindow ∧
  (st2.nextQueuingNumber : Int) =
    st2.lastQueuingNumber + 1 + st1.carIdQueue.length

/-- The `j`-th waiting car of the physical queue holds the `j`-th
outstanding ticket of the virtual queue, is still on street `s` and has
finished traversing it. -/
def queueOk (numCars : Nat) (cars2 : Nat → Car2) (s : String)
    (st1 : Street1) (st2 : Street2) : Prop :=
  ∀ j m, st1.carIdQueue.get? j = some m →
    m < numCars ∧ (cars2 m).remainingTimeOnStreet = 0 ∧
    (cars2 m).currentStreetName = s ∧
    ((cars2 m).queuingNumber : Int) = st2.lastQueuingNumber + 1 + j

/-- Full coupling invariant between an `index.js` state and a `part_001`
state. -/
structure Coupled (numCars : Nat) (streets1 : String → Option Street1)
    (streets2 : String → Option Street2) (cars1 : Nat → Car1)
    (cars2 : Nat → Car2) : Prop where
  cars : ∀ i, i < numCars → carAgrees (cars1 i) (cars2 i)
  nameTrack : ∀ i, i < numCars → (cars2 i).currentStreetName =
    (cars2 i).streetNames.getD (cars2 i).currentStreetIdx ""
  idxBound : ∀ i, i < numCars →
    (cars2 i).currentStreetIdx + 1 ≤ (cars2 i).numStreets ∧
    (cars2 i).numStreets = (cars2 i).streetNames.length
  routeStreets : ∀ i, i < numCars → ∀ name ∈ (cars2 i).streetNames,
    (streets2 name).isSome = true
  streetsIff : ∀ s, (streets1 s).isSome = (streets2 s).isSome
  streetData : ∀ s st1 st2, streets1 s = some st1 → streets2 s = some st2 →
    streetAgrees st1 st2 ∧ 1 ≤ st2.duration ∧ queueOk numCars cars2 s st1 st2
  pending : ∀ i, i < numCars → (cars2 i).arrived = false →
    (cars2 i).remainingTimeOnStreet = 0 →
    ((cars2 i).currentStreetIdx : Int) < ((cars2 i).numStreets : Int) - 1 →
    ∀ st1, streets1 ((cars2 i).currentStreetName) = some st1 →
      i ∈ st1.carIdQueue

/-- The coupling only inspects states pointwise, so it transports along
pointwise equal maps. -/
theorem Coupled_of_eqs {numCars : Nat} {streets1 sa : String → Option Street1}
    {streets2 sb : String → Option Street2} {cars1 ca : Nat → Car1}
    {cars2 cb : Nat → Car2}
    (H : Coupled numCars streets1 streets2 cars1 cars2)
    (hs1 : ∀ s, sa s = streets1 s) (hs2 : ∀ s, sb s = streets2 s)
    (hc1 : ∀ j, ca j = cars1 j) (hc2 : ∀ j, cb j = cars2 j) :
    Coupled numCars sa sb ca cb := by
  constructor
  · intro i hi; rw [hc1, hc2]; exact H.cars i hi
  · intro i hi; rw [hc2]; exact H.nameTrack i hi
  · intro i hi; rw [hc2]; exact H.idxBound i hi
  · intro i hi name hn
    rw [hc2] at hn
    rw [hs2]
    exact H.routeStreets i hi name hn
  · intro s; rw [hs1, hs2]; exact H.streetsIff s
  · intro s st1 st2 h1 h2
    rw [hs1] at h1
    rw [hs2] at h2
    obtain ⟨hag, hdur, hq⟩ := H.streetData s st1 st2 h1 h2
    refine ⟨hag, hdur, ?_⟩
    intro j m hm
    have := hq j m hm
    rw [hc2]
    exact this
  · intro i hi ha hr hidx st1 h1
    rw [hc2] at ha hr hidx h1
    rw [hs1] at h1
    exact H.pending i hi ha hr hidx st1 h1

/-- Head of the physical queue versus the virtual-queue guard. -/
theorem head_iff_ticket {numCars : Nat} {streets1 : String → Option Street1}
    {streets2 : String → Option Street2} {cars1 : Nat → Car1}
    {cars2 : Nat → Car2}
    (H : Coupled numCars streets1 streets2 cars1 cars2)
    {i : Nat} (hi : i < numCars) {s : String} {st1 : Street1} {st2 : Street2}
    (h1 : streets1 s = some st1) (h2 : streets2 s = some st2)
    (hname : (cars2 i).currentStreetName = s)
    (ha : (cars2 i).arrived = false)
    (hr : (cars2 i).remainingTimeOnStreet = 0)
    (hidx : ((cars2 i).currentStreetIdx : Int) <
      ((cars2 i).numStreets : Int) - 1) :
    st1.carIdQueue.head? = some i ↔
      st2.lastQueuingNumber + 1 = ((cars2 i).queuingNumber : Int) := by
  obtain ⟨-, -, hq⟩ := H.streetData s st1 st2 h1 h2
  have hhead : st1.carIdQueue.head? = st1.carIdQueue.get? 0 := by
    cases st1.carIdQueue <;> rfl
  constructor
  · intro hh
    rw [hhead] at hh
    have := (hq 0 i hh).2.2.2
    omega
  · intro hq2
    have hmem : i ∈ st1.carIdQueue :=
      H.pending i hi ha hr hidx st1 (by rw [hname]; exact h1)
    obtain ⟨j, hj⟩ := List.mem_iff_get?.mp hmem
    have hspec := (hq j i hj).2.2.2
    have hj0 : j = 0 := by omega
    subst hj0
    rw [hhead]
    exact hj

theorem get?_tail_succ {α : Type} (l : List α) (n : Nat) :
    l.tail.get? n = l.get? (n + 1) := by
  cases l <;> simp

/-- Decrementing a still-travelling car (remaining time at least 2)
preserves the coupling; streets and all other cars are untouched. -/
theorem Coupled_move {numCars : Nat} {streets1 : String → Option Street1}
    {streets2 : String → Option Street2} {cars1 : Nat → Car1}
    {cars2 : Nat → Car2} (H : Coupled numCars streets1 streets2 cars1 cars2)
    {i : Nat} (hi : i < numCars) {ca : Nat → Car1} {cb : Nat → Car2}
    (hc1 : ∀ j, j ≠ i → ca j = cars1 j) (hc2 : ∀ j, j ≠ i → cb j = cars2 j)
    (hagree : carAgrees (ca i) (cb i))
    (hrem2 : 2 ≤ (cars2 i).remainingTimeOnStreet)
    (hbrem : (cb i).remainingTimeOnStreet =
      (cars2 i).remainingTimeOnStreet - 1)
    (hns : (cb i).numStreets = (cars2 i).numStreets)
    (hsn : (cb i).streetNames = (cars2 i).streetNames)
    (hidx : (cb i).currentStreetIdx = (cars2 i).currentStreetIdx)
    (hname : (cb i).currentStreetName = (cars2 i).currentStreetName)
    (hqn : (cb i).queuingNumber = (cars2 i).queuingNumber)
    (harr : (cb i).arrived = (cars2 i).arrived) :
    Coupled numCars streets1 streets2 ca cb := by
  constructor
  · intro j hj
    by_cases hij : j = i
    · subst hij; exact hagree
    · rw [hc1 j hij, hc2 j hij]; exact H.cars j hj
  · intro j hj
    by_cases hij : j = i
    · subst hij; rw [hname, hsn, hidx]; exact H.nameTrack j hj
    · rw [hc2 j hij]; exact H.nameTrack j hj
  · intro j hj
    by_cases hij : j = i
    · subst hij; rw [hns, hsn, hidx]; exact H.idxBound j hj
    · rw [hc2 j hij]; exact H.idxBound j hj
  · intro j hj name hn
    by_cases hij : j = i
    · subst hij; rw [hsn] at hn; exact H.routeStreets j hj name hn
    · rw [hc2 j hij] at hn; exact H.routeStreets j hj name hn
  · exact H.streetsIff
  · intro s st1 st2 h1 h2
    obtain ⟨hag, hdur, hq⟩ := H.streetData s st1 st2 h1 h2
    refine ⟨hag, hdur, ?_⟩
    intro j m hm
    obtain ⟨q1, q2, q3, q4⟩ := hq j m hm
    have hmi : m ≠ i := by
      intro hctr; subst hctr; omega
    rw [hc2 m hmi]
    exact ⟨q1, q2, q3, q4⟩
  · intro j hj ha hr hx st1 h1
    by_cases hij : j = i
    · subst hij
      rw [hbrem] at hr
      omega
    · rw [hc2 j hij] at ha hr hx h1
      exact H.pending j hj ha hr hx st1 h1

/-- Marking a car arrived (its remaining time being 0 and all positional
fields unchanged) preserves the coupling. -/
theorem Coupled_arrival {numCars : Nat} {streets1 : String → Option Street1}
    {streets2 : String → Option Street2} {cars1 : Nat → Car1}
    {cars2 : Nat → Car2} (H : Coupled numCars streets1 streets2 cars1 cars2)
    {i : Nat} (hi : i < numCars) {ca : Nat → Car1} {cb : Nat → Car2}
    (hc1 : ∀ j, j ≠ i → ca j = cars1 j) (hc2 : ∀ j, j ≠ i → cb j = cars2 j)
    (hagree : carAgrees (ca i) (cb i))
    (hbrem : (cb i).remainingTimeOnStreet = 0)
    (hns : (cb i).numStreets = (cars2 i).numStreets)
    (hsn : (cb i).streetNames = (cars2 i).streetNames)
    (hidx : (cb i).currentStreetIdx = (cars2 i).currentStreetIdx)
    (hname : (cb i).currentStreetName = (cars2 i).currentStreetName)
    (hqn : (cb i).queuingNumber = (cars2 i).queuingNumber)
    (harr : (cb i).arrived = true) :
    Coupled numCars streets1 streets2 ca cb := by
  constructor
  · intro j hj
    by_cases hij : j = i
    · subst hij; exact hagree
    · rw [hc1 j hij, hc2 j hij]; exact H.cars j hj
  · intro j hj
    by_cases hij : j = i
    · subst hij; rw [hname, hsn, hidx]; exact H.nameTrack j hj
    · rw [hc2 j hij]; exact H.nameTrack j hj
  · intro j hj
    by_cases hij : j = i
    · subst hij; rw [hns, hsn, hidx]; exact H.idxBound j hj
    · rw [hc2 j hij]; exact H.idxBound j hj
  · intro j hj name hn
    by_cases hij : j = i
    · subst hij; rw [hsn] at hn; exact H.routeStreets j hj name hn
    · rw [hc2 j hij] at hn; exact H.routeStreets j hj name hn
  · exact H.streetsIff
  · intro s st1 st2 h1 h2
    obtain ⟨hag, hdur, hq⟩ := H.streetData s st1 st2 h1 h2
    refine ⟨hag, hdur, ?_⟩
    intro j m hm
    obtain ⟨q1, q2, q3, q4⟩ := hq j m hm
    by_cases hmi : m = i
    · subst hmi
      exact ⟨q1, hbrem, by rw [hname]; exact q3, by rw [hqn]; exact q4⟩
    · rw [hc2 m hmi]
      exact ⟨q1, q2, q3, q4⟩
  · intro j hj ha hr hx st1 h1
    by_cases hij : j = i
    · subst hij
      rw [harr] at ha
      exact absurd ha (by simp)
    · rw [hc2 j hij] at ha hr hx h1
      exact H.pending j hj ha hr hx st1 h1

/-- Registering a car (remaining time 1, more streets to travel) into its
current street's queue — physically by appending its index, virtually by
handing out the next ticket — preserves the coupling. -/
theorem Coupled_register {numCars : Nat} {streets1 : String → Option Street1}
    {streets2 : String → Option Street2} {cars1 : Nat → Car1}
    {cars2 : Nat → Car2} (H : Coupled numCars streets1 streets2 cars1 cars2)
    {i : Nat} (hi : i < numCars) {s : String} {st1 : Street1} {st2 : Street2}
    (hs : (cars2 i).currentStreetName = s)
    (h1 : streets1 s = some st1) (h2 : streets2 s = some st2)
    (hrem1 : (cars2 i).remainingTimeOnStreet = 1)
    (hxlt : ((cars2 i).currentStreetIdx : Int) <
      ((cars2 i).numStreets : Int) - 1)
    {ca : Nat → Car1} {cb : Nat → Car2}
    (hc1 : ∀ j, j ≠ i → ca j = cars1 j) (hc2 : ∀ j, j ≠ i → cb j = cars2 j)
    (hagree : carAgrees (ca i) (cb i))
    (hbrem : (cb i).remainingTimeOnStreet = 0)
    (hqn : (cb i).queuingNumber = st2.nextQueuingNumber)
    (hns : (cb i).numStreets = (cars2 i).numStreets)
    (hsn : (cb i).streetNames = (cars2 i).streetNames)
    (hidx : (cb i).currentStreetIdx = (cars2 i).currentStreetIdx)
    (hname : (cb i).currentStreetName = (cars2 i).currentStreetName)
    (harr : (cb i).arrived = (cars2 i).arrived) :
    Coupled numCars
      (updf streets1 s (some { st1 with
        carIdQueue := st1.carIdQueue ++ [i] }))
      (updf streets2 s (some { st2 with
        nextQueuingNumber := st2.nextQueuingNumber + 1 })) ca cb := by
  obtain ⟨hag, hdur, hq⟩ := H.streetData s st1 st2 h1 h2
  constructor
  · intro j hj
    by_cases hij : j = i
    · subst hij; exact hagree
    · rw [hc1 j hij, hc2 j hij]; exact H.cars j hj
  · intro j hj
    by_cases hij : j = i
    · subst hij; rw [hname, hsn, hidx]; exact H.nameTrack j hj
    · rw [hc2 j hij]; exact H.nameTrack j hj
  · intro j hj
    by_cases hij : j = i
    · subst hij; rw [hns, hsn, hidx]; exact H.idxBound j hj
    · rw [hc2 j hij]; exact H.idxBound j hj
  · intro j hj name hn
    have hsome : (streets2 name).isSome = true := by
      by_cases hij : j = i
      · subst hij; rw [hsn] at hn; exact H.routeStreets j hj name hn
      · rw [hc2 j hij] at hn; exact H.routeStreets j hj name hn
    by_cases hts : name = s
    · subst hts; simp [updf]
    · rw [updf_other _ _ _ _ hts]; exact hsome
  · intro t
    by_cases hts : t = s
    · subst hts; simp [updf, h1, h2]
    · rw [updf_other _ _ _ _ hts, updf_other _ _ _ _ hts]
      exact H.streetsIff t
  · intro t sta stb ha1 ha2
    by_cases hts : t = s
    · subst hts
      rw [updf_same] at ha1 ha2
      obtain ⟨rfl⟩ : sta = { st1 with carIdQueue := st1.carIdQueue ++ [i] } :=
        by simpa using ha1.symm
      obtain ⟨rfl⟩ : stb = { st2 with
          nextQueuingNumber := st2.nextQueuingNumber + 1 } :=
        by simpa using ha2.symm
      refine ⟨⟨hag.1, hag.2.1, hag.2.2.1, ?_⟩, hdur, ?_⟩
      · have := hag.2.2.2
        simp only [List.length_append, List.length_singleton]
        push_cast at this ⊢
        omega
      · intro j m hm
        simp only at hm ⊢
        obtain ⟨hlt, -⟩ := List.get?_eq_some.mp hm
        rw [List.length_append, List.length_singleton] at hlt
        by_cases hjlen : j < st1.carIdQueue.length
        · rw [List.get?_append hjlen] at hm
          obtain ⟨q1, q2, q3, q4⟩ := hq j m hm
          have hmi : m ≠ i := by
            intro hctr; subst hctr
            rw [hrem1] at q2
            exact absurd q2 (by simp)
          rw [hc2 m hmi]
          exact ⟨q1, q2, q3, q4⟩
        · have hj : j = st1.carIdQueue.length := by omega
          subst hj
          rw [List.get?_concat_length] at hm
          obtain ⟨rfl⟩ : m = i := by simpa using hm.symm
          refine ⟨hi, hbrem, by rw [hname, hs], ?_⟩
          rw [hqn]
          have := hag.2.2.2
          push_cast at this ⊢
          omega
    · rw [updf_other _ _ _ _ hts] at ha1 ha2
      obtain ⟨hagt, hdurt, hqt⟩ := H.streetData t sta stb ha1 ha2
      refine ⟨hagt, hdurt, ?_⟩
      intro j m hm
      obtain ⟨q1, q2, q3, q4⟩ := hqt j m hm
      have hmi : m ≠ i := by
        intro hctr; subst hctr
        rw [hs] at q3
        exact hts q3.symm
      rw [hc2 m hmi]
      exact ⟨q1, q2, q3, q4⟩
  · intro j hj ha hr hx st1a h1a
    by_cases hij : j = i
    · subst hij
      rw [hname, hs] at h1a
      rw [updf_same] at h1a
      simp only [Option.some.injEq] at h1a
      rw [← h1a]
      simp
    · rw [hc2 j hij] at ha hr hx h1a
      by_cases hts : (cars2 j).currentStreetName = s
      · rw [hts, updf_same] at h1a
        simp only [Option.some.injEq] at h1a
        rw [← h1a]
        have := H.pending j hj ha hr hx st1 (by rw [hts]; exact h1)
        simp only [List.mem_append]
        exact Or.inl this
      · rw [updf_other _ _ _ _ hts] at h1a
        exact H.pending j hj ha hr hx st1a h1a

/-- A successful crossing — physically shifting the queue head, virtually
advancing `lastQueuingNumber` to the crossing car's ticket — preserves the
coupling, provided the car moves onto a street with positive traversal
time. -/
theorem Coupled_cross {numCars : Nat} {streets1 : String → Option Street1}
    {streets2 : String → Option Street2} {cars1 : Nat → Car1}
    {cars2 : Nat → Car2} (H : Coupled numCars streets1 streets2 cars1 cars2)
    {i : Nat} (hi : i < numCars) {s : String} {st1 : Street1} {st2 : Street2}
    (hs : (cars2 i).currentStreetName = s)
    (h1 : streets1 s = some st1) (h2 : streets2 s = some st2)
    (hhead : st1.carIdQueue.get? 0 = some i)
    (hrem0 : (cars2 i).remainingTimeOnStreet = 0)
    (hxlt : ((cars2 i).currentStreetIdx : Int) <
      ((cars2 i).numStreets : Int) - 1)
    (q : Nat) (hqn : (cars2 i).queuingNumber = q)
    {ca : Nat → Car1} {cb : Nat → Car2}
    (hc1 : ∀ j, j ≠ i → ca j = cars1 j) (hc2 : ∀ j, j ≠ i → cb j = cars2 j)
    (hagree : carAgrees (ca i) (cb i))
    (hbrem : 1 ≤ (cb i).remainingTimeOnStreet)
    (hidx : (cb i).currentStreetIdx = (cars2 i).currentStreetIdx + 1)
    (hname : (cb i).currentStreetName =
      (cars2 i).streetNames.getD ((cars2 i).currentStreetIdx + 1) "")
    (hns : (cb i).numStreets = (cars2 i).numStreets)
    (hsn : (cb i).streetNames = (cars2 i).streetNames) :
    Coupled numCars
      (updf streets1 s (some { st1 with
        carIdQueue := st1.carIdQueue.tail }))
      (updf streets2 s (some { st2 with
        lastQueuingNumber := (q : Int) })) ca cb := by
  subst hqn
  obtain ⟨hag, hdur, hq⟩ := H.streetData s st1 st2 h1 h2
  have hq0 := hq 0 i hhead
  have hlen0 : 0 < st1.carIdQueue.length := by
    obtain ⟨hlt, -⟩ := List.get?_eq_some.mp hhead
    exact hlt
  constructor
  · intro j hj
    by_cases hij : j = i
    · subst hij; exact hagree
    · rw [hc1 j hij, hc2 j hij]; exact H.cars j hj
  · intro j hj
    by_cases hij : j = i
    · subst hij; rw [hname, hsn, hidx]
    · rw [hc2 j hij]; exact H.nameTrack j hj
  · intro j hj
    by_cases hij : j = i
    · subst hij
      rw [hns, hsn, hidx]
      refine ⟨by omega, (H.idxBound j hj).2⟩
    · rw [hc2 j hij]; exact H.idxBound j hj
  · intro j hj name hn
    have hsome : (streets2 name).isSome = true := by
      by_cases hij : j = i
      · subst hij; rw [hsn] at hn; exact H.routeStreets j hj name hn
      · rw [hc2 j hij] at hn; exact H.routeStreets j hj name hn
    by_cases hts : name = s
    · subst hts; simp [updf]
    · rw [updf_other _ _ _ _ hts]; exact hsome
  · intro t
    by_cases hts : t = s
    · subst hts; simp [updf, h1, h2]
    · rw [updf_other _ _ _ _ hts, updf_other _ _ _ _ hts]
      exact H.streetsIff t
  · intro t sta stb ha1 ha2
    by_cases hts : t = s
    · subst hts
      rw [updf_same] at ha1 ha2
      obtain ⟨rfl⟩ : sta = { st1 with carIdQueue := st1.carIdQueue.tail } :=
        by simpa using ha1.symm
      obtain ⟨rfl⟩ : stb = { st2 with
          lastQueuingNumber := ((cars2 i).queuingNumber : Int) } :=
        by simpa using ha2.symm
      refine ⟨⟨hag.1, hag.2.1, hag.2.2.1, ?_⟩, hdur, ?_⟩
      · have hnext := hag.2.2.2
        have hqi := hq0.2.2.2
        simp only [List.length_tail]
        push_cast at hnext hqi ⊢
        omega
      · intro j m hm
        simp only at hm ⊢
        rw [get?_tail_succ] at hm
        obtain ⟨q1, q2, q3, q4⟩ := hq (j + 1) m hm
        have hqi := hq0.2.2.2
        have hmi : m ≠ i := by
          intro hctr; subst hctr
          rw [q4] at hqi
          push_cast at hqi
          omega
        rw [hc2 m hmi]
        refine ⟨q1, q2, q3, ?_⟩
        rw [q4]
        push_cast [hqi]
        push_cast at hqi
        omega
    · rw [updf_other _ _ _ _ hts] at ha1 ha2
      obtain ⟨hagt, hdurt, hqt⟩ := H.streetData t sta stb ha1 ha2
      refine ⟨hagt, hdurt, ?_⟩
      intro j m hm
      obtain ⟨q1, q2, q3, q4⟩ := hqt j m hm
      have hmi : m ≠ i := by
        intro hctr; subst hctr
        rw [hs] at q3
        exact hts q3.symm
      rw [hc2 m hmi]
      exact ⟨q1, q2, q3, q4⟩
  · intro j hj ha hr hx st1a h1a
    by_cases hij : j = i
    · subst hij
      rw [hr] at hbrem
      omega
    · rw [hc2 j hij] at ha hr hx h1a
      by_cases hts : (cars2 j).currentStreetName = s
      · rw [hts, updf_same] at h1a
        obtain ⟨rfl⟩ : st1a = { st1 with
            carIdQueue := st1.carIdQueue.tail } := by simpa using h1a.symm
        have hmem := H.pending j hj ha hr hx st1 (by rw [hts]; exact h1)
        obtain ⟨p, hp⟩ := List.mem_iff_get?.mp hmem
        have hp0 : p ≠ 0 := by
          intro hctr; subst hctr
          rw [hhead] at hp
          exact hij (by simpa using hp.symm)
        simp only
        apply List.mem_iff_get?.mpr
        refine ⟨p - 1, ?_⟩
        rw [get?_tail_succ]
        have : p - 1 + 1 = p := by omega
        rw [this]
        exact hp
      · rw [updf_other _ _ _ _ hts] at h1a
        exact H.pending j hj ha hr hx st1a h1a

/-! ## Per-case computation lemmas for the two steps -/

theorem carStep2_eq_crossStep2 (bonusPoint time remainingTime : Nat)
    (crossed : String → Bool) (streets : String → Option Street2)
    (car : Car2) (h : car.arrived = false)
    (hno : ¬(car.remainingTimeOnStreet = 1 ∧
      (car.currentStreetIdx : Int) < (car.numStreets : Int) - 1)) :
    carStep2 bonusPoint time remainingTime crossed streets car =
      crossStep2 bonusPoint time remainingTime crossed streets
        (moveStep2 car) := by
  rw [carStep2, if_neg (by simp [h]), registerStep2, if_neg hno]

theorem carStep2_eq_reg (bonusPoint time remainingTime : Nat)
    (crossed : String → Bool) (streets : String → Option Street2)
    (car : Car2) (st : Street2) (h : car.arrived = false)
    (hrem : car.remainingTimeOnStreet = 1)
    (hlt : (car.currentStreetIdx : Int) < (car.numStreets : Int) - 1)
    (hst : streets car.currentStreetName = some st) :
    carStep2 bonusPoint time remainingTime crossed streets car =
      crossStep2 bonusPoint time remainingTime crossed
        (updf streets car.currentStreetName
          (some { st with nextQueuingNumber := st.nextQueuingNumber + 1 }))
        { car with queuingNumber := st.nextQueuingNumber,
                   remainingTimeOnStreet := 0 } := by
  rw [carStep2, if_neg (by simp [h]), registerStep2, if_pos ⟨hrem, hlt⟩, hst]
  dsimp only
  rw [moveStep2]
  rw [if_pos (by simp [hrem])]
  simp [hrem]

theorem crossStep2_travel (bonusPoint time remainingTime : Nat)
    (crossed : String → Bool) (streets : String → Option Street2)
    (car : Car2) (hrem : car.remainingTimeOnStreet ≠ 0) :
    crossStep2 bonusPoint time remainingTime crossed streets car =
      ⟨crossed, streets, car, none⟩ := by
  rw [crossStep2, if_neg hrem]

theorem crossStep2_arrive (bonusPoint time remainingTime : Nat)
    (crossed : String → Bool) (streets : String → Option Street2)
    (car : Car2) (hrem : car.remainingTimeOnStreet = 0)
    (hlast : (car.currentStreetIdx : Int) = (car.numStreets : Int) - 1) :
    crossStep2 bonusPoint time remainingTime crossed streets car =
      ⟨crossed, streets,
       { car with arrived := true, score := bonusPoint + remainingTime,
                  commuteTime := time }, none⟩ := by
  rw [crossStep2, if_pos hrem, if_pos hlast]

theorem crossStep2_stall (bonusPoint time remainingTime : Nat)
    (crossed : String → Bool) (streets : String → Option Street2)
    (car : Car2) (hrem : car.remainingTimeOnStreet = 0)
    (hlast : ¬((car.currentStreetIdx : Int) = (car.numStreets : Int) - 1))
    (hk : remainingTime = 0) :
    crossStep2 bonusPoint time remainingTime crossed streets car =
      ⟨crossed, streets, car, none⟩ := by
  rw [crossStep2, if_pos hrem, if_neg hlast, if_pos hk]

theorem crossStep2_guardfail (bonusPoint time remainingTime : Nat)
    (crossed : String → Bool) (streets : String → Option Street2)
    (car : Car2) (st : Street2) (hrem : car.remainingTimeOnStreet = 0)
    (hlast : ¬((car.currentStreetIdx : Int) = (car.numStreets : Int) - 1))
    (hk : ¬(remainingTime = 0))
    (hst : streets car.currentStreetName = some st)
    (hguard : isTrafficLightGreen2 time st = false ∨
      crossed car.currentStreetName = true ∨
      st.lastQueuingNumber + 1 ≠ (car.queuingNumber : Int)) :
    crossStep2 bonusPoint time remainingTime crossed streets car =
      ⟨crossed, streets, car, none⟩ := by
  rw [crossStep2, if_pos hrem, if_neg hlast, if_neg hk, hst]
  dsimp only
  rw [if_pos hguard]

theorem crossStep2_go (bonusPoint time remainingTime : Nat)
    (crossed : String → Bool) (streets : String → Option Street2)
    (car : Car2) (st stN : Street2) (hrem : car.remainingTimeOnStreet = 0)
    (hlast : ¬((car.currentStreetIdx : Int) = (car.numStreets : Int) - 1))
    (hk : ¬(remainingTime = 0))
    (hst : streets car.currentStreetName = some st)
    (hgreen : isTrafficLightGreen2 time st = true)
    (hmk : crossed car.currentStreetName = false)
    (hticket : st.lastQueuingNumber + 1 = (car.queuingNumber : Int))
    (hstN : updf streets car.currentStreetName
        (some { st with lastQueuingNumber := (car.queuingNumber : Int) })
        (car.streetNames.getD (car.currentStreetIdx + 1) "") = some stN) :
    crossStep2 bonusPoint time remainingTime crossed streets car =
      ⟨updf crossed car.currentStreetName true,
       updf streets car.currentStreetName
         (some { st with lastQueuingNumber := (car.queuingNumber : Int) }),
       { car with currentStreetIdx := car.currentStreetIdx + 1,
                  currentStreetName :=
                    car.streetNames.getD (car.currentStreetIdx + 1) "",
                  remainingTimeOnStreet := stN.duration },
       some (car.currentStreetName, car.queuingNumber)⟩ := by
  rw [crossStep2, if_pos hrem, if_neg hlast, if_neg hk, hst]
  dsimp only
  rw [if_neg (by simp [hgreen, hmk, hticket])]
  rw [hstN]

theorem carStep1_eq_crossStep1 (bonusPoint time remainingTime : Nat)
    (crossed : String → Bool) (streets : String → Option Street1)
    (i : Nat) (car : Car1) (h : car.arrived = false)
    (hno : ¬(car.remainingTimeOnStreet = 1 ∧
      (car.currentStreetIdx : Int) < (car.numStreets : Int) - 1)) :
    carStep1 bonusPoint time remainingTime crossed streets i car =
      crossStep1 bonusPoint time remainingTime crossed streets i
        (moveStep1 car) := by
  rw [carStep1, if_neg (by simp [h]), registerStep1, if_neg hno]

theorem carStep1_eq_reg (bonusPoint time remainingTime : Nat)
    (crossed : String → Bool) (streets : String → Option Street1)
    (i : Nat) (car : Car1) (st : Street1) (s : String)
    (h : car.arrived = false)
    (hsk : car.streetNames.getD car.currentStreetIdx "" = s)
    (hrem : car.remainingTimeOnStreet = 1)
    (hlt : (car.currentStreetIdx : Int) < (car.numStreets : Int) - 1)
    (hst : streets s = some st) :
    carStep1 bonusPoint time remainingTime crossed streets i car =
      crossStep1 bonusPoint time remainingTime crossed
        (updf streets s
          (some { st with carIdQueue := st.carIdQueue ++ [i] })) i
        { car with remainingTimeOnStreet := 0 } := by
  rw [carStep1, if_neg (by simp [h]), registerStep1, if_pos ⟨hrem, hlt⟩, hsk,
    hst]
  dsimp only
  rw [moveStep1]
  rw [if_pos (by simp [hrem])]
  simp [hrem]

theorem crossStep1_travel (bonusPoint time remainingTime : Nat)
    (crossed : String → Bool) (streets : String → Option Street1)
    (i : Nat) (car : Car1) (hrem : car.remainingTimeOnStreet ≠ 0) :
    crossStep1 bonusPoint time remainingTime crossed streets i car =
      ⟨crossed, streets, car⟩ := by
  rw [crossStep1, if_neg hrem]

theorem crossStep1_arrive (bonusPoint time remainingTime : Nat)
    (crossed : String → Bool) (streets : String → Option Street1)
    (i : Nat) (car : Car1) (hrem : car.remainingTimeOnStreet = 0)
    (hlast : (car.currentStreetIdx : Int) = (car.numStreets : Int) - 1) :
    crossStep1 bonusPoint time remainingTime crossed streets i car =
      ⟨crossed, streets,
       { car with arrived := true, score := bonusPoint + remainingTime,
                  commuteTime := time }⟩ := by
  rw [crossStep1, if_pos hrem, if_pos hlast]

theorem crossStep1_stall (bonusPoint time remainingTime : Nat)
    (crossed : String → Bool) (streets : String → Option Street1)
    (i : Nat) (car : Car1) (hrem : car.remainingTimeOnStreet = 0)
    (hlast : ¬((car.currentStreetIdx : Int) = (car.numStreets : Int) - 1))
    (hk : remainingTime = 0) :
    crossStep1 bonusPoint time remainingTime crossed streets i car =
      ⟨crossed, streets, car⟩ := by
  rw [crossStep1, if_pos hrem, if_neg hlast, if_pos hk]

theorem crossStep1_guardfail (bonusPoint time remainingTime : Nat)
    (crossed : String → Bool) (streets : String → Option Street1)
    (i : Nat) (car : Car1) (st : Street1) (s : String)
    (hrem : car.remainingTimeOnStreet = 0)
    (hlast : ¬((car.currentStreetIdx : Int) = (car.numStreets : Int) - 1))
    (hk : ¬(remainingTime = 0))
    (hsk : car.streetNames.getD car.currentStreetIdx "" = s)
    (hst : streets s = some st)
    (hguard : isTrafficLightGreen1 time st = false ∨
      crossed s = true ∨ st.carIdQueue.head? ≠ some i) :
    crossStep1 bonusPoint time remainingTime crossed streets i car =
      ⟨crossed, streets, car⟩ := by
  rw [crossStep1, if_pos hrem, if_neg hlast, if_neg hk, hsk, hst]
  dsimp only
  rw [if_pos hguard]

theorem crossStep1_go (bonusPoint time remainingTime : Nat)
    (crossed : String → Bool) (streets : String → Option Street1)
    (i : Nat) (car : Car1) (st stN : Street1) (s : String)
    (hrem : car.remainingTimeOnStreet = 0)
    (hlast : ¬((car.currentStreetIdx : Int) = (car.numStreets : Int) - 1))
    (hk : ¬(remainingTime = 0))
    (hsk : car.streetNames.getD car.currentStreetIdx "" = s)
    (hst : streets s = some st)
    (hgreen : isTrafficLightGreen1 time st = true)
    (hmk : crossed s = false)
    (hhead : st.carIdQueue.head? = some i)
    (hstN : updf streets s
        (some { st with carIdQueue := st.carIdQueue.tail })
        (car.streetNames.getD (car.currentStreetIdx + 1) "") = some stN) :
    crossStep1 bonusPoint time remainingTime crossed streets i car =
      ⟨updf crossed s true,
       updf streets s (some { st with carIdQueue := st.carIdQueue.tail }),
       { car with currentStreetIdx := car.currentStreetIdx + 1,
                  remainingTimeOnStreet := stN.duration }⟩ := by
  rw [crossStep1, if_pos hrem, if_neg hlast, if_neg hk, hsk, hst]
  dsimp only
  have hng : ¬(isTrafficLightGreen1 time st = false ∨
      crossed s = true ∨ st.carIdQueue.head? ≠ some i) := by
    intro hcon
    rcases hcon with h1 | h2 | h3
    · rw [hgreen] at h1; exact absurd h1 (by simp)
    · rw [hmk] at h2; exact absurd h2 (by simp)
    · exact h3 hhead
  rw [if_neg hng]
  rw [hstN]

theorem green_eq {st1 : Street1} {st2 : Street2}
    (hs : st1.schedule = st2.schedule)
    (hw : st1.scheduledTimeWindow = st2.scheduledTimeWindow) (time : Nat) :
    isTrafficLightGreen1 time st1 = isTrafficLightGreen2 time st2 := by
  rw [isTrafficLightGreen1, isTrafficLightGreen2, hs, hw]

theorem getD_mem_of_lt {α : Type} (l : List α) (n : Nat) (d : α)
    (h : n < l.length) : l.getD n d ∈ l := by
  rw [List.getD_eq_get?, List.get?_eq_get h]
  simp only [Option.getD_some]
  exact List.get_mem l n h

theorem moveStep2_id (car : Car2) (h : car.remainingTimeOnStreet = 0) :
    moveStep2 car = car := by
  rw [moveStep2, if_neg (by omega)]

theorem moveStep1_id (car : Car1) (h : car.remainingTimeOnStreet = 0) :
    moveStep1 car = car := by
  rw [moveStep1, if_neg (by omega)]

theorem moveStep1_dec (car : Car1) (h : 0 < car.remainingTimeOnStreet) :
    moveStep1 car =
      { car with remainingTimeOnStreet := car.remainingTimeOnStreet - 1 } := by
  rw [moveStep1, if_pos h]

theorem moveStep2_dec (car : Car2) (h : 0 < car.remainingTimeOnStreet) :
    moveStep2 car =
      { car with remainingTimeOnStreet := car.remainingTimeOnStreet - 1 } := by
  rw [moveStep2, if_pos h]

/-- The current street of every tracked car exists in both street maps. -/
theorem Coupled.curStreets {numCars : Nat}
    {streets1 : String → Option Street1} {streets2 : String → Option Street2}
    {cars1 : Nat → Car1} {cars2 : Nat → Car2}
    (H : Coupled numCars streets1 streets2 cars1 cars2) {i : Nat}
    (hi : i < numCars) :
    ∃ st1 st2, streets1 ((cars2 i).currentStreetName) = some st1 ∧
      streets2 ((cars2 i).currentStreetName) = some st2 := by
  obtain ⟨hb1, hb2⟩ := H.idxBound i hi
  have hlt : (cars2 i).currentStreetIdx < (cars2 i).streetNames.length := by
    omega
  have hmem : (cars2 i).currentStreetName ∈ (cars2 i).streetNames := by
    rw [H.nameTrack i hi]
    exact getD_mem_of_lt _ _ _ hlt
  have h2some := H.routeStreets i hi _ hmem
  obtain ⟨st2, h2⟩ := Option.isSome_iff_exists.mp h2some
  have h1some : (streets1 ((cars2 i).currentStreetName)).isSome = true := by
    rw [H.streetsIff]; exact h2some
  obtain ⟨st1, h1⟩ := Option.isSome_iff_exists.mp h1some
  exact ⟨st1, st2, h1, h2⟩

/-- Looking up any existing street name after the parallel single-key
updates still yields records with equal, positive traversal duration. -/
theorem next_street_lookup {numCars : Nat}
    {streets1 : String → Option Street1} {streets2 : String → Option Street2}
    {cars1 : Nat → Car1} {cars2 : Nat → Car2}
    (H : Coupled numCars streets1 streets2 cars1 cars2)
    {s : String} {v1 : Street1} {v2 : Street2}
    (hv : v1.duration = v2.duration) (hdv : 1 ≤ v2.duration) (name : String)
    (hname : (streets2 name).isSome = true) :
    ∃ stN1 stN2, updf streets1 s (some v1) name = some stN1 ∧
      updf streets2 s (some v2) name = some stN2 ∧
      stN1.duration = stN2.duration ∧ 1 ≤ stN2.duration := by
  by_cases hns : name = s
  · subst hns
    exact ⟨v1, v2, by simp, by simp, hv, hdv⟩
  · rw [updf_other _ _ _ _ hns, updf_other _ _ _ _ hns]
    obtain ⟨stN2, h2⟩ := Option.isSome_iff_exists.mp hname
    have h1some : (streets1 name).isSome = true := by
      rw [H.streetsIff]; exact hname
    obtain ⟨stN1, h1⟩ := Option.isSome_iff_exists.mp h1some
    obtain ⟨hag, hdur, -⟩ := H.streetData name stN1 stN2 h1 h2
    exact ⟨stN1, stN2, h1, h2, hag.1, hdur⟩


theorem head?_eq_get?0 {α : Type} (l : List α) : l.head? = l.get? 0 := by
  cases l <;> rfl

set_option maxHeartbeats 1000000

theorem carStep_coupled (bonusPoint time remainingTime : Nat)
    {numCars : Nat} {streets1 : String → Option Street1}
    {streets2 : String → Option Street2} {cars1 : Nat → Car1}
    {cars2 : Nat → Car2} (H : Coupled numCars streets1 streets2 cars1 cars2)
    (crossed : String → Bool) {i : Nat} (hi : i < numCars) :
    (carStep1 bonusPoint time remainingTime crossed streets1 i
        (cars1 i)).crossed =
      (carStep2 bonusPoint time remainingTime crossed streets2
        (cars2 i)).crossed ∧
    Coupled numCars
      (carStep1 bonusPoint time remainingTime crossed streets1 i
        (cars1 i)).streets
      (carStep2 bonusPoint time remainingTime crossed streets2
        (cars2 i)).streets
      (fun j => if j = i then
        (carStep1 bonusPoint time remainingTime crossed streets1 i
          (cars1 i)).car else cars1 j)
      (fun j => if j = i then
        (carStep2 bonusPoint time remainingTime crossed streets2
          (cars2 i)).car else cars2 j) := by
  obtain ⟨en, esn, eidx, erem, earr, esc, ect⟩ := H.cars i hi
  by_cases harr : (cars2 i).arrived = true
  · have h1 : carStep1 bonusPoint time remainingTime crossed streets1 i
        (cars1 i) = ⟨crossed, streets1, cars1 i⟩ := by
      rw [carStep1, if_pos (by rw [earr]; exact harr)]
    have h2 : carStep2 bonusPoint time remainingTime crossed streets2
        (cars2 i) = ⟨crossed, streets2, cars2 i, none⟩ := by
      rw [carStep2, if_pos harr]
    rw [h1, h2]
    refine ⟨rfl, ?_⟩
    exact Coupled_of_eqs H (fun _ => rfl) (fun _ => rfl)
      (fun j => by by_cases hj : j = i <;> simp [hj])
      (fun j => by by_cases hj : j = i <;> simp [hj])
  · have harr2 : (cars2 i).arrived = false := by simpa using harr
    have harr1 : (cars1 i).arrived = false := by rw [earr]; exact harr2
    have hkey : (cars1 i).streetNames.getD (cars1 i).currentStreetIdx ""
        = (cars2 i).currentStreetName := by
      rw [esn, eidx, ← H.nameTrack i hi]
    by_cases hreg : (cars2 i).remainingTimeOnStreet = 1 ∧
        ((cars2 i).currentStreetIdx : Int) < ((cars2 i).numStreets : Int) - 1
    · obtain ⟨hrem1, hlt⟩ := hreg
      obtain ⟨st1, st2, h1, h2⟩ := H.curStreets hi
      obtain ⟨hag, hdur, hq⟩ := H.streetData _ st1 st2 h1 h2
      have e1 := carStep1_eq_reg bonusPoint time remainingTime crossed
        streets1 i (cars1 i) st1 ((cars2 i).currentStreetName) harr1 hkey
        (by rw [erem]; exact hrem1) (by rw [eidx, en]; exact hlt) h1
      have e2 := carStep2_eq_reg bonusPoint time remainingTime crossed
        streets2 (cars2 i) st2 harr2 hrem1 hlt h2
      have Hmid : Coupled numCars
          (updf streets1 ((cars2 i).currentStreetName)
            (some { st1 with carIdQueue := st1.carIdQueue ++ [i] }))
          (updf streets2 ((cars2 i).currentStreetName)
            (some { st2 with nextQueuingNumber := st2.nextQueuingNumber + 1 }))
          (fun j => if j = i then
            { cars1 i with remainingTimeOnStreet := 0 } else cars1 j)
          (fun j => if j = i then
            { cars2 i with queuingNumber := st2.nextQueuingNumber,
                           remainingTimeOnStreet := 0 } else cars2 j) :=
        Coupled_register H hi rfl h1 h2 hrem1 hlt
          (fun j hj => by simp [hj]) (fun j hj => by simp [hj])
          (by simp only [eq_self_iff_true, if_true]
              exact ⟨en, esn, eidx, rfl, earr, esc, ect⟩)
          (by simp) (by simp) (by simp) (by simp) (by simp) (by simp)
          (by simp)
      by_cases hk : remainingTime = 0
      · have f1 := crossStep1_stall bonusPoint time remainingTime crossed
          (updf streets1 ((cars2 i).currentStreetName)
            (some { st1 with carIdQueue := st1.carIdQueue ++ [i] })) i
          { cars1 i with remainingTimeOnStreet := 0 } rfl
          (by show ¬(((cars1 i).currentStreetIdx : Int) =
                ((cars1 i).numStreets : Int) - 1)
              rw [eidx, en]
              omega) hk
        have f2 := crossStep2_stall bonusPoint time remainingTime crossed
          (updf streets2 ((cars2 i).currentStreetName)
            (some { st2 with nextQueuingNumber := st2.nextQueuingNumber + 1 }))
          { cars2 i with queuingNumber := st2.nextQueuingNumber,
                         remainingTimeOnStreet := 0 } rfl
          (by show ¬(((cars2 i).currentStreetIdx : Int) =
                ((cars2 i).numStreets : Int) - 1)
              omega) hk
        rw [e1, f1, e2, f2]
        exact ⟨rfl, Hmid⟩
      · have hsa : updf streets1 ((cars2 i).currentStreetName)
            (some { st1 with carIdQueue := st1.carIdQueue ++ [i] })
            ((cars2 i).currentStreetName) =
            some { st1 with carIdQueue := st1.carIdQueue ++ [i] } :=
          updf_same _ _ _
        have hsb : updf streets2 ((cars2 i).currentStreetName)
            (some { st2 with nextQueuingNumber := st2.nextQueuingNumber + 1 })
            ((cars2 i).currentStreetName) =
            some { st2 with nextQueuingNumber := st2.nextQueuingNumber + 1 } :=
          updf_same _ _ _
        have hgr : isTrafficLightGreen1 time
            { st1 with carIdQueue := st1.carIdQueue ++ [i] } =
            isTrafficLightGreen2 time
            { st2 with nextQueuingNumber := st2.nextQueuingNumber + 1 } :=
          green_eq hag.2.1 hag.2.2.1 time
        have hticket := head_iff_ticket Hmid hi hsa hsb (by simp)
          (by simp [harr2]) (by simp) (by simpa using hlt)
        simp only [eq_self_iff_true, if_true] at hticket
        by_cases hgo : isTrafficLightGreen2 time
            { st2 with nextQueuingNumber := st2.nextQueuingNumber + 1 }
              = true ∧
            crossed ((cars2 i).currentStreetName) = false ∧
            st2.lastQueuingNumber + 1 = (st2.nextQueuingNumber : Int)
        · obtain ⟨hgreen2, hmk, htk⟩ := hgo
          have hhead1 : ({ st1 with carIdQueue := st1.carIdQueue ++ [i]
              }).carIdQueue.head? = some i := hticket.mpr htk
          have hhead0 : ({ st1 with carIdQueue := st1.carIdQueue ++ [i]
              }).carIdQueue.get? 0 = some i := by
            rw [← head?_eq_get?0]; exact hhead1
          have hlen : (cars2 i).currentStreetIdx + 1 <
              (cars2 i).streetNames.length := by
            have := (H.idxBound i hi).2
            omega
          have hnmem : (cars2 i).streetNames.getD
              ((cars2 i).currentStreetIdx + 1) "" ∈ (cars2 i).streetNames :=
            getD_mem_of_lt _ _ _ hlen
          have hnsome : (updf streets2 ((cars2 i).currentStreetName)
              (some { st2 with
                nextQueuingNumber := st2.nextQueuingNumber + 1 })
              ((cars2 i).streetNames.getD ((cars2 i).currentStreetIdx + 1)
                "")).isSome = true :=
            Hmid.routeStreets i hi _ (by simpa using hnmem)
          obtain ⟨stN1, stN2, hstN1, hstN2, hNdur, hNpos⟩ :=
            next_street_lookup Hmid (s := (cars2 i).currentStreetName)
              (show ({ st1 with
                  carIdQueue := (st1.carIdQueue ++ [i]).tail }).duration =
                ({ st2 with
                  lastQueuingNumber := (st2.nextQueuingNumber : Int),
                  nextQueuingNumber :=
                    st2.nextQueuingNumber + 1 }).duration from hag.1)
              (show 1 ≤ ({ st2 with
                  lastQueuingNumber := (st2.nextQueuingNumber : Int),
                  nextQueuingNumber :=
                    st2.nextQueuingNumber + 1 }).duration from hdur)
              ((cars2 i).streetNames.getD ((cars2 i).currentStreetIdx + 1) "")
              hnsome
          rw [← esn, ← eidx] at hstN1
          have f1 := crossStep1_go bonusPoint time remainingTime crossed
            (updf streets1 ((cars2 i).currentStreetName)
              (some { st1 with carIdQueue := st1.carIdQueue ++ [i] })) i
            { cars1 i with remainingTimeOnStreet := 0 }
            { st1 with carIdQueue := st1.carIdQueue ++ [i] } stN1
            ((cars2 i).currentStreetName) rfl
            (by show ¬(((cars1 i).currentStreetIdx : Int) =
                  ((cars1 i).numStreets : Int) - 1)
                rw [eidx, en]
                omega) hk hkey hsa (by rw [hgr]; exact hgreen2) hmk hhead1
            hstN1
          have f2 := crossStep2_go bonusPoint time remainingTime crossed
            (updf streets2 ((cars2 i).currentStreetName)
              (some { st2 with
                nextQueuingNumber := st2.nextQueuingNumber + 1 }))
            { cars2 i with queuingNumber := st2.nextQueuingNumber,
                           remainingTimeOnStreet := 0 }
            { st2 with nextQueuingNumber := st2.nextQueuingNumber + 1 } stN2
            rfl
            (by show ¬(((cars2 i).currentStreetIdx : Int) =
                  ((cars2 i).numStreets : Int) - 1)
                omega) hk hsb hgreen2 hmk htk hstN2
          rw [e1, f1, e2, f2]
          refine ⟨rfl, ?_⟩
          exact Coupled_cross Hmid hi (by simp) hsa hsb hhead0 (by simp)
            (by simpa using hlt) st2.nextQueuingNumber (by simp)
            (fun j hj => by simp [hj]) (fun j hj => by simp [hj])
            (by simp only [eq_self_iff_true, if_true]
                exact ⟨en, esn, by rw [eidx], hNdur, earr, esc, ect⟩)
            (by simpa using hNpos) (by simp) (by simp) (by simp) (by simp)
        · have hguard2 : isTrafficLightGreen2 time
              { st2 with nextQueuingNumber := st2.nextQueuingNumber + 1 }
                = false ∨
              crossed ((cars2 i).currentStreetName) = true ∨
              st2.lastQueuingNumber + 1 ≠ (st2.nextQueuingNumber : Int) := by
            by_contra hcon
            push_neg at hcon
            exact hgo ⟨by simpa using hcon.1, by simpa using hcon.2.1,
              hcon.2.2⟩
          have hguard1 : isTrafficLightGreen1 time
              { st1 with carIdQueue := st1.carIdQueue ++ [i] } = false ∨
              crossed ((cars2 i).currentStreetName) = true ∨
              ({ st1 with carIdQueue := st1.carIdQueue ++ [i]
                }).carIdQueue.head? ≠ some i := by
            rcases hguard2 with hg | hg | hg
            · exact Or.inl (by rw [hgr]; exact hg)
            · exact Or.inr (Or.inl hg)
            · refine Or.inr (Or.inr ?_)
              intro hh
              exact hg (hticket.mp hh)
          have f1 := crossStep1_guardfail bonusPoint time remainingTime
            crossed
            (updf streets1 ((cars2 i).currentStreetName)
              (some { st1 with carIdQueue := st1.carIdQueue ++ [i] })) i
            { cars1 i with remainingTimeOnStreet := 0 }
            { st1 with carIdQueue := st1.carIdQueue ++ [i] }
            ((cars2 i).currentStreetName) rfl
            (by show ¬(((cars1 i).currentStreetIdx : Int) =
                  ((cars1 i).numStreets : Int) - 1)
                rw [eidx, en]
                omega) hk hkey hsa hguard1
          have f2 := crossStep2_guardfail bonusPoint time remainingTime
            crossed
            (updf streets2 ((cars2 i).currentStreetName)
              (some { st2 with
                nextQueuingNumber := st2.nextQueuingNumber + 1 }))
            { cars2 i with queuingNumber := st2.nextQueuingNumber,
                           remainingTimeOnStreet := 0 }
            { st2 with nextQueuingNumber := st2.nextQueuingNumber + 1 } rfl
            (by show ¬(((cars2 i).currentStreetIdx : Int) =
                  ((cars2 i).numStreets : Int) - 1)
                omega) hk hsb hguard2
          rw [e1, f1, e2, f2]
          exact ⟨rfl, Hmid⟩
    · have hno1 : ¬((cars1 i).remainingTimeOnStreet = 1 ∧
          ((cars1 i).currentStreetIdx : Int) <
            ((cars1 i).numStreets : Int) - 1) := by
        rw [erem, eidx, en]
        exact hreg
      have e1 := carStep1_eq_crossStep1 bonusPoint time remainingTime crossed
        streets1 i (cars1 i) harr1 hno1
      have e2 := carStep2_eq_crossStep2 bonusPoint time remainingTime crossed
        streets2 (cars2 i) harr2 hreg
      by_cases hr0 : (cars2 i).remainingTimeOnStreet = 0
      · rw [moveStep1_id (cars1 i) (by rw [erem]; exact hr0)] at e1
        rw [moveStep2_id (cars2 i) hr0] at e2
        by_cases hlast : ((cars2 i).currentStreetIdx : Int) =
            ((cars2 i).numStreets : Int) - 1
        · have f1 := crossStep1_arrive bonusPoint time remainingTime crossed
            streets1 i (cars1 i) (by rw [erem]; exact hr0)
            (by rw [eidx, en]; exact hlast)
          have f2 := crossStep2_arrive bonusPoint time remainingTime crossed
            streets2 (cars2 i) hr0 hlast
          rw [e1, f1, e2, f2]
          refine ⟨rfl, ?_⟩
          exact Coupled_arrival H hi (fun j hj => by simp [hj])
            (fun j hj => by simp [hj])
            (by simp only [eq_self_iff_true, if_true]
                exact ⟨en, esn, eidx, erem, rfl, rfl, rfl⟩)
            (by simp [hr0]) (by simp) (by simp) (by simp) (by simp)
            (by simp) (by simp)
        · by_cases hk : remainingTime = 0
          · have f1 := crossStep1_stall bonusPoint time remainingTime crossed
              streets1 i (cars1 i) (by rw [erem]; exact hr0)
              (by rw [eidx, en]; exact hlast) hk
            have f2 := crossStep2_stall bonusPoint time remainingTime crossed
              streets2 (cars2 i) hr0 hlast hk
            rw [e1, f1, e2, f2]
            refine ⟨rfl, ?_⟩
            exact Coupled_of_eqs H (fun _ => rfl) (fun _ => rfl)
              (fun j => by by_cases hj : j = i <;> simp [hj])
              (fun j => by by_cases hj : j = i <;> simp [hj])
          · obtain ⟨st1, st2, h1, h2⟩ := H.curStreets hi
            obtain ⟨hag, hdur, hq⟩ := H.streetData _ st1 st2 h1 h2
            have hgr := green_eq hag.2.1 hag.2.2.1 time
            have hticket := head_iff_ticket H hi h1 h2 rfl harr2 hr0
              (by obtain ⟨hb1, hb2⟩ := H.idxBound i hi; omega)
            by_cases hgo : isTrafficLightGreen2 time st2 = true ∧
                crossed ((cars2 i).currentStreetName) = false ∧
                st2.lastQueuingNumber + 1 = ((cars2 i).queuingNumber : Int)
            · obtain ⟨hgreen2, hmk, htk⟩ := hgo
              have hhead1 : st1.carIdQueue.head? = some i := hticket.mpr htk
              have hhead0 : st1.carIdQueue.get? 0 = some i := by
                rw [← head?_eq_get?0]; exact hhead1
              have hlen : (cars2 i).currentStreetIdx + 1 <
                  (cars2 i).streetNames.length := by
                obtain ⟨hb1, hb2⟩ := H.idxBound i hi
                omega
              have hnsome : (streets2 ((cars2 i).streetNames.getD
                  ((cars2 i).currentStreetIdx + 1) "")).isSome = true :=
                H.routeStreets i hi _
                  (getD_mem_of_lt ((cars2 i).streetNames)
                    ((cars2 i).currentStreetIdx + 1) "" hlen)
              obtain ⟨stN1, stN2, hstN1, hstN2, hNdur, hNpos⟩ :=
                next_street_lookup H (s := (cars2 i).currentStreetName)
                  (show ({ st1 with
                      carIdQueue := st1.carIdQueue.tail }).duration =
                    ({ st2 with lastQueuingNumber :=
                      ((cars2 i).queuingNumber : Int) }).duration from hag.1)
                  (show 1 ≤ ({ st2 with lastQueuingNumber :=
                      ((cars2 i).queuingNumber : Int) }).duration from hdur)
                  ((cars2 i).streetNames.getD
                    ((cars2 i).currentStreetIdx + 1) "")
                  hnsome
              rw [← esn, ← eidx] at hstN1
              have f1 := crossStep1_go bonusPoint time remainingTime crossed
                streets1 i (cars1 i) st1 stN1 ((cars2 i).currentStreetName)
                (by rw [erem]; exact hr0)
                (by rw [eidx, en]; exact hlast) hk hkey h1
                (by rw [hgr]; exact hgreen2) hmk hhead1 hstN1
              have f2 := crossStep2_go bonusPoint time remainingTime crossed
                streets2 (cars2 i) st2 stN2 hr0 hlast hk h2 hgreen2 hmk htk
                hstN2
              rw [e1, f1, e2, f2]
              refine ⟨rfl, ?_⟩
              exact Coupled_cross H hi rfl h1 h2 hhead0 hr0
                (by obtain ⟨hb1, hb2⟩ := H.idxBound i hi; omega)
                ((cars2 i).queuingNumber) rfl
                (fun j hj => by simp [hj]) (fun j hj => by simp [hj])
                (by simp only [eq_self_iff_true, if_true]
                    exact ⟨en, esn, by rw [eidx], hNdur, earr, esc, ect⟩)
                (by simpa using hNpos) (by simp) (by simp) (by simp)
                (by simp)
            · have hguard2 : isTrafficLightGreen2 time st2 = false ∨
                  crossed ((cars2 i).currentStreetName) = true ∨
                  st2.lastQueuingNumber + 1 ≠
                    ((cars2 i).queuingNumber : Int) := by
                by_contra hcon
                push_neg at hcon
                exact hgo ⟨by simpa using hcon.1, by simpa using hcon.2.1,
                  hcon.2.2⟩
              have hguard1 : isTrafficLightGreen1 time st1 = false ∨
                  crossed ((cars2 i).currentStreetName) = true ∨
                  st1.carIdQueue.head? ≠ some i := by
                rcases hguard2 with hg | hg | hg
                · exact Or.inl (by rw [hgr]; exact hg)
                · exact Or.inr (Or.inl hg)
                · refine Or.inr (Or.inr ?_)
                  intro hh
                  exact hg (hticket.mp hh)
              have f1 := crossStep1_guardfail bonusPoint time remainingTime
                crossed streets1 i (cars1 i) st1
                ((cars2 i).currentStreetName)
                (by rw [erem]; exact hr0)
                (by rw [eidx, en]; exact hlast) hk hkey h1 hguard1
              have f2 := crossStep2_guardfail bonusPoint time remainingTime
                crossed streets2 (cars2 i) st2 hr0 hlast hk h2 hguard2
              rw [e1, f1, e2, f2]
              refine ⟨rfl, ?_⟩
              exact Coupled_of_eqs H (fun _ => rfl) (fun _ => rfl)
                (fun j => by by_cases hj : j = i <;> simp [hj])
                (fun j => by by_cases hj : j = i <;> simp [hj])
      · by_cases hr1 : (cars2 i).remainingTimeOnStreet = 1
        · have hlast2 : ((cars2 i).currentStreetIdx : Int) =
              ((cars2 i).numStreets : Int) - 1 := by
            obtain ⟨hb1, hb2⟩ := H.idxBound i hi
            have hnlt : ¬(((cars2 i).currentStreetIdx : Int) <
                ((cars2 i).numStreets : Int) - 1) := fun hc =>
              hreg ⟨hr1, hc⟩
            omega
          rw [moveStep1_dec (cars1 i) (by rw [erem]; omega)] at e1
          rw [moveStep2_dec (cars2 i) (by omega)] at e2
          have f1 := crossStep1_arrive bonusPoint time remainingTime crossed
            streets1 i
            { cars1 i with remainingTimeOnStreet :=
                (cars1 i).remainingTimeOnStreet - 1 }
            (by show (cars1 i).remainingTimeOnStreet - 1 = 0
                rw [erem, hr1])
            (by show ((cars1 i).currentStreetIdx : Int) =
                  ((cars1 i).numStreets : Int) - 1
                rw [eidx, en]
                exact hlast2)
          have f2 := crossStep2_arrive bonusPoint time remainingTime crossed
            streets2
            { cars2 i with remainingTimeOnStreet :=
                (cars2 i).remainingTimeOnStreet - 1 }
            (by show (cars2 i).remainingTimeOnStreet - 1 = 0
                rw [hr1])
            (by show ((cars2 i).currentStreetIdx : Int) =
                  ((cars2 i).numStreets : Int) - 1
                exact hlast2)
          rw [e1, f1, e2, f2]
          refine ⟨rfl, ?_⟩
          exact Coupled_arrival H hi (fun j hj => by simp [hj])
            (fun j hj => by simp [hj])
            (by simp only [eq_self_iff_true, if_true]
                exact ⟨en, esn, eidx, by rw [erem], rfl, rfl, rfl⟩)
            (by simp [hr1]) (by simp) (by simp) (by simp) (by simp)
            (by simp) (by simp)
        · rw [moveStep1_dec (cars1 i) (by rw [erem]; omega)] at e1
          rw [moveStep2_dec (cars2 i) (by omega)] at e2
          have f1 := crossStep1_travel bonusPoint time remainingTime crossed
            streets1 i
            { cars1 i with remainingTimeOnStreet :=
                (cars1 i).remainingTimeOnStreet - 1 }
            (by show ¬((cars1 i).remainingTimeOnStreet - 1 = 0)
                rw [erem]
                omega)
          have f2 := crossStep2_travel bonusPoint time remainingTime crossed
            streets2
            { cars2 i with remainingTimeOnStreet :=
                (cars2 i).remainingTimeOnStreet - 1 }
            (by show ¬((cars2 i).remainingTimeOnStreet - 1 = 0)
                omega)
          rw [e1, f1, e2, f2]
          refine ⟨rfl, ?_⟩
          exact Coupled_move H hi (fun j hj => by simp [hj])
            (fun j hj => by simp [hj])
            (by simp only [eq_self_iff_true, if_true]
                exact ⟨en, esn, eidx, by rw [erem], earr, esc, ect⟩)
            (by omega) (by simp) (by simp) (by simp) (by simp) (by simp)
            (by simp) (by simp)



/-- The per-car coupling step extends to the whole inner loop over any
processing order whose indices are in range. -/
theorem carsLoop_coupled (bonusPoint time remainingTime : Nat)
    {numCars : Nat} (order : List Nat) :
    ∀ (ho : ∀ j ∈ order, j < numCars) (crossed : String → Bool)
      {streets1 : String → Option Street1}
      {streets2 : String → Option Street2}
      {cars1 : Nat → Car1} {cars2 : Nat → Car2},
      Coupled numCars streets1 streets2 cars1 cars2 →
      Coupled numCars
        (carsLoop1 bonusPoint time remainingTime crossed streets1 cars1
          order).streets
        (carsLoop2 bonusPoint time remainingTime crossed streets2 cars2
          order).streets
        (carsLoop1 bonusPoint time remainingTime crossed streets1 cars1
          order).cars
        (carsLoop2 bonusPoint time remainingTime crossed streets2 cars2
          order).cars := by
  induction order with
  | nil => intro ho crossed s1 s2 c1 c2 H; exact H
  | cons i rest ih =>
    intro ho crossed s1 s2 c1 c2 H
    have hi : i < numCars := ho i (List.mem_cons_self i rest)
    obtain ⟨hcr, Hstep⟩ :=
      carStep_coupled bonusPoint time remainingTime H crossed hi
    simp only [carsLoop1, carsLoop2]
    rw [hcr]
    exact ih (fun j hj => ho j (List.mem_cons_of_mem i hj)) _ Hstep

/-- One tick preserves the coupling. -/
theorem tickStep_coupled (bonusPoint time remainingTime numCars : Nat)
    {streets1 : String → Option Street1}
    {streets2 : String → Option Street2}
    {cars1 : Nat → Car1} {cars2 : Nat → Car2}
    (H : Coupled numCars streets1 streets2 cars1 cars2) :
    Coupled numCars
      (tickStep1 bonusPoint time remainingTime numCars streets1
        cars1).streets
      (tickStep2 bonusPoint time remainingTime numCars streets2
        cars2).streets
      (tickStep1 bonusPoint time remainingTime numCars streets1 cars1).cars
      (tickStep2 bonusPoint time remainingTime numCars streets2 cars2).cars
    := by
  rw [tickStep1, tickStep2]
  exact carsLoop_coupled bonusPoint time remainingTime (List.range numCars)
    (fun j hj => List.mem_range.mp hj) (fun _ => false) H

/-- The tick loop preserves the coupling for any fuel. -/
theorem simLoop_coupled (bonusPoint numCars : Nat) (fuel : Nat) :
    ∀ (time : Nat) {streets1 : String → Option Street1}
      {streets2 : String → Option Street2}
      {cars1 : Nat → Car1} {cars2 : Nat → Car2},
      Coupled numCars streets1 streets2 cars1 cars2 →
      Coupled numCars
        (simLoop1 bonusPoint numCars fuel time streets1 cars1).streets
        (simLoop2 bonusPoint numCars fuel time streets2 cars2).streets
        (simLoop1 bonusPoint numCars fuel time streets1 cars1).cars
        (simLoop2 bonusPoint numCars fuel time streets2 cars2).cars := by
  induction fuel with
  | zero => intro time s1 s2 c1 c2 H; exact H
  | succ fuel ih =>
    intro time s1 s2 c1 c2 H
    simp only [simLoop1, simLoop2]
    exact ih (time + 1) (tickStep_coupled bonusPoint time fuel numCars H)

/-- Whole-simulation coupling: coupled initial states give coupled final
states. -/
theorem simulate_coupled (bonusPoint duration numCars : Nat)
    {streets1 : String → Option Street1}
    {streets2 : String → Option Street2}
    {cars1 : Nat → Car1} {cars2 : Nat → Car2}
    (H : Coupled numCars streets1 streets2 cars1 cars2) :
    Coupled numCars
      (simulate1 bonusPoint duration numCars streets1 cars1).streets
      (simulate2 bonusPoint duration numCars streets2 cars2).streets
      (simulate1 bonusPoint duration numCars streets1 cars1).cars
      (simulate2 bonusPoint duration numCars streets2 cars2).cars := by
  rw [simulate1, simulate2]
  exact simLoop_coupled bonusPoint numCars (duration + 1) 0 H

/-! ## Input data set and initial state (parseInputDataSet, both files) -/

/-- The parsed input data set shared by both engines: simulation duration,
bonus points, the street lines `(streetName, duration)` in file order and
the car lines `(numStreets, streetNames)` in file order. -/
structure Dataset where
  duration : Nat
  bonusPoint : Nat
  streetList : List (String × Nat)
  carRoutes : List (Nat × List String)

/-- Street initialisation of `index.js` (line 65): each street line stores
`{ duration, carIdQueue: [] }` together with its compiled schedule; a
repeated name overwrites the earlier entry. -/
def initStreets1 (sched : String → Option (Nat × Nat)) (win : String → Nat) :
    (String → Option Street1) → List (String × Nat) →
    (String → Option Street1)
  | acc, [] => acc
  | acc, p :: rest =>
    initStreets1 sched win
      (updf acc p.1 (some ⟨p.2, [], sched p.1, win p.1⟩)) rest

/-- Street initialisation of `part_001` (line 65): the counters start at
`lastQueuingNumber = -1` and `nextQueuingNumber = 0`. -/
def initStreets2 (sched : String → Option (Nat × Nat)) (win : String → Nat) :
    (String → Option Street2) → List (String × Nat) →
    (String → Option Street2)
  | acc, [] => acc
  | acc, p :: rest =>
    initStreets2 sched win
      (updf acc p.1 (some ⟨p.2, -1, 0, sched p.1, win p.1⟩)) rest

/-- Default car used to totalise list indexing. -/
def defCar1 : Car1 := ⟨0, [], 0, 0, false, 0, 0⟩

/-- Default car used to totalise list indexing. -/
def defCar2 : Car2 := ⟨0, [], 0, "", 0, 0, false, 0, 0⟩

/-- Car initialisation of `index.js` (lines 69–81): car `i` starts on its
first street, whose physical queue receives the index `i`. -/
def initLoop1 :
    (String → Option Street1) → Nat → List (Nat × List String) →
    (String → Option Street1) × List Car1
  | streets, _, [] => (streets, [])
  | streets, i, r :: rest =>
    match streets (r.2.getD 0 "") with
    | some st =>
      let res := initLoop1
        (updf streets (r.2.getD 0 "")
          (some { st with carIdQueue := st.carIdQueue ++ [i] }))
        (i + 1) rest
      (res.1, ⟨r.1, r.2, 0, 0, false, 0, 0⟩ :: res.2)
    | none =>
      let res := initLoop1 streets (i + 1) rest
      (res.1, ⟨r.1, r.2, 0, 0, false, 0, 0⟩ :: res.2)

/-- Car initialisation of `part_001` (lines 69–83): each car takes its
first street's next queuing number and the counter is incremented. -/
def initLoop2 :
    (String → Option Street2) → List (Nat × List String) →
    (String → Option Street2) × List Car2
  | streets, [] => (streets, [])
  | streets, r :: rest =>
    match streets (r.2.getD 0 "") with
    | some st =>
      let res := initLoop2
        (updf streets (r.2.getD 0 "")
          (some { st with nextQueuingNumber := st.nextQueuingNumber + 1 }))
        rest
      (res.1,
       ⟨r.1, r.2, 0, r.2.getD 0 "", 0, st.nextQueuingNumber, false, 0, 0⟩ ::
         res.2)
    | none =>
      let res := initLoop2 streets rest
      (res.1, ⟨r.1, r.2, 0, r.2.getD 0 "", 0, 0, false, 0, 0⟩ :: res.2)

/-- Parse-time initial state of `index.js` followed by its `simulate`. -/
def runSim1 (sched : String → Option (Nat × Nat)) (win : String → Nat)
    (ds : Dataset) : SimRes1 :=
  let init := initLoop1
    (initStreets1 sched win (fun _ => none) ds.streetList) 0 ds.carRoutes
  simulate1 ds.bonusPoint ds.duration ds.carRoutes.length init.1
    (fun i => init.2.getD i defCar1)

/-- Parse-time initial state of `part_001` followed by its `simulate`. -/
def runSim2 (sched : String → Option (Nat × Nat)) (win : String → Nat)
    (ds : Dataset) : SimRes2 :=
  let init := initLoop2
    (initStreets2 sched win (fun _ => none) ds.streetList) ds.carRoutes
  simulate2 ds.bonusPoint ds.duration ds.carRoutes.length init.1
    (fun i => init.2.getD i defCar2)

/-- Well-formedness of the input data set: positive street durations, car
street counts consistent with the listed route, non-empty routes, and
every route street declared in the street section. -/
def WFDataset (ds : Dataset) : Prop :=
  (∀ p ∈ ds.streetList, 1 ≤ p.2) ∧
  ∀ r ∈ ds.carRoutes, r.1 = r.2.length ∧ 1 ≤ r.2.length ∧
    ∀ name ∈ r.2, name ∈ ds.streetList.map Prod.fst

instance (ds : Dataset) : Decidable (WFDataset ds) := by
  rw [WFDataset]
  infer_instance

/-- Relation between the two street maps right after street parsing: same
domain, and every entry still carries its parse-time queue state. -/
def initRel (sched : String → Option (Nat × Nat)) (win : String → Nat)
    (s1 : String → Option Street1) (s2 : String → Option Street2) : Prop :=
  ∀ name, (s1 name = none ∧ s2 name = none) ∨
    ∃ d, s1 name = some ⟨d, [], sched name, win name⟩ ∧
      s2 name = some ⟨d, -1, 0, sched name, win name⟩ ∧ 1 ≤ d

theorem initStreets_rel (sched : String → Option (Nat × Nat))
    (win : String → Nat) :
    ∀ (l : List (String × Nat)) (s1 : String → Option Street1)
      (s2 : String → Option Street2), (∀ p ∈ l, 1 ≤ p.2) →
      initRel sched win s1 s2 →
      initRel sched win (initStreets1 sched win s1 l)
        (initStreets2 sched win s2 l)
  | [], _, _, _, h => h
  | p :: rest, s1, s2, hd, h =>
    initStreets_rel sched win rest _ _
      (fun q hq => hd q (List.mem_cons_of_mem p hq))
      (fun name => by
        by_cases hn : name = p.1
        · subst hn
          exact Or.inr ⟨p.2, by rw [updf_same], by rw [updf_same],
            hd p (List.mem_cons_self p rest)⟩
        · rw [updf_other _ _ _ _ hn, updf_other _ _ _ _ hn]
          exact h name)

theorem initStreets2_mono (sched : String → Option (Nat × Nat))
    (win : String → Nat) :
    ∀ (l : List (String × Nat)) (s2 : String → Option Street2)
      (name : String), (s2 name).isSome = true →
      ((initStreets2 sched win s2 l) name).isSome = true
  | [], _, _, h => h
  | p :: rest, s2, name, h =>
    initStreets2_mono sched win rest _ name (by
      by_cases hn : name = p.1
      · subst hn; rw [updf_same]; rfl
      · rw [updf_other _ _ _ _ hn]; exact h)

/-- Every declared street name ends up in the parsed street map. -/
theorem initStreets2_dom (sched : String → Option (Nat × Nat))
    (win : String → Nat) (l : List (String × Nat)) :
    ∀ (s2 : String → Option Street2) (name : String),
      name ∈ l.map Prod.fst →
      ((initStreets2 sched win s2 l) name).isSome = true := by
  induction l with
  | nil => intro s2 name h; simp at h
  | cons p rest ih =>
    intro s2 name h
    rw [List.map_cons, List.mem_cons] at h
    show ((initStreets2 sched win
      (updf s2 p.1 (some ⟨p.2, -1, 0, sched p.1, win p.1⟩)) rest)
        name).isSome = true
    rcases h with h | h
    · subst h
      exact initStreets2_mono sched win rest _ _ (by rw [updf_same]; rfl)
    · exact ih _ name h

/-- With no cars yet, the parse-time street relation is already a
coupling. -/
theorem Coupled_init0 {sched : String → Option (Nat × Nat)}
    {win : String → Nat} {s1 : String → Option Street1}
    {s2 : String → Option Street2} (hrel : initRel sched win s1 s2) :
    Coupled 0 s1 s2 (fun j => ([] : List Car1).getD j defCar1)
      (fun j => ([] : List Car2).getD j defCar2) := by
  constructor
  · intro j hj; omega
  · intro j hj; omega
  · intro j hj; omega
  · intro j hj; omega
  · intro t
    rcases hrel t with ⟨ha, hb⟩ | ⟨d, ha, hb, -⟩ <;> rw [ha, hb] <;> rfl
  · intro t st1 st2 h1 h2
    rcases hrel t with ⟨ha, hb⟩ | ⟨d, ha, hb, hd⟩
    · rw [ha] at h1; exact absurd h1 (by simp)
    · rw [ha] at h1
      rw [hb] at h2
      simp only [Option.some.injEq] at h1 h2
      subst h1
      subst h2
      refine ⟨⟨rfl, rfl, rfl, by simp⟩, hd, ?_⟩
      intro j m hm
      simp at hm
  · intro j hj; omega

/-- Adding a fresh car at parse time — index pushed onto its first
street's physical queue, ticket taken from the virtual counter — extends
a coupling of `numCars` cars to `numCars + 1`. -/
theorem Coupled_newCar {numCars : Nat} {streets1 : String → Option Street1}
    {streets2 : String → Option Street2} {cars1 : Nat → Car1}
    {cars2 : Nat → Car2} (H : Coupled numCars streets1 streets2 cars1 cars2)
    {s : String} {st1 : Street1} {st2 : Street2}
    (h1 : streets1 s = some st1) (h2 : streets2 s = some st2)
    {n : Nat} {names : List String}
    (hn : n = names.length) (hpos : 1 ≤ names.length)
    (hroutes : ∀ name ∈ names, (streets2 name).isSome = true)
    (hs : names.getD 0 "" = s)
    {ca : Nat → Car1} {cb : Nat → Car2}
    (hc1old : ∀ j, j < numCars → ca j = cars1 j)
    (hc2old : ∀ j, j < numCars → cb j = cars2 j)
    (hc1new : ca numCars = ⟨n, names, 0, 0, false, 0, 0⟩)
    (hc2new : cb numCars =
      ⟨n, names, 0, s, 0, st2.nextQueuingNumber, false, 0, 0⟩) :
    Coupled (numCars + 1)
      (updf streets1 s (some { st1 with
        carIdQueue := st1.carIdQueue ++ [numCars] }))
      (updf streets2 s (some { st2 with
        nextQueuingNumber := st2.nextQueuingNumber + 1 })) ca cb := by
  obtain ⟨hag, hdur, hq⟩ := H.streetData s st1 st2 h1 h2
  constructor
  · intro j hj
    by_cases hij : j = numCars
    · subst hij
      rw [hc1new, hc2new]
      exact ⟨rfl, rfl, rfl, rfl, rfl, rfl, rfl⟩
    · have hj2 : j < numCars := by omega
      rw [hc1old j hj2, hc2old j hj2]
      exact H.cars j hj2
  · intro j hj
    by_cases hij : j = numCars
    · subst hij
      rw [hc2new]
      exact hs.symm
    · have hj2 : j < numCars := by omega
      rw [hc2old j hj2]
      exact H.nameTrack j hj2
  · intro j hj
    by_cases hij : j = numCars
    · subst hij
      rw [hc2new]
      exact ⟨by show 0 + 1 ≤ n; omega, hn⟩
    · have hj2 : j < numCars := by omega
      rw [hc2old j hj2]
      exact H.idxBound j hj2
  · intro j hj name hmem
    have hsome : (streets2 name).isSome = true := by
      by_cases hij : j = numCars
      · subst hij
        rw [hc2new] at hmem
        exact hroutes name hmem
      · have hj2 : j < numCars := by omega
        rw [hc2old j hj2] at hmem
        exact H.routeStreets j hj2 name hmem
    by_cases hts : name = s
    · subst hts; simp [updf]
    · rw [updf_other _ _ _ _ hts]; exact hsome
  · intro t
    by_cases hts : t = s
    · subst hts; simp [updf, h1, h2]
    · rw [updf_other _ _ _ _ hts, updf_other _ _ _ _ hts]
      exact H.streetsIff t
  · intro t sta stb ha1 ha2
    by_cases hts : t = s
    · subst hts
      rw [updf_same] at ha1 ha2
      obtain ⟨rfl⟩ : sta = { st1 with
          carIdQueue := st1.carIdQueue ++ [numCars] } := by
        simpa using ha1.symm
      obtain ⟨rfl⟩ : stb = { st2 with
          nextQueuingNumber := st2.nextQueuingNumber + 1 } := by
        simpa using ha2.symm
      refine ⟨⟨hag.1, hag.2.1, hag.2.2.1, ?_⟩, hdur, ?_⟩
      · have hnext := hag.2.2.2
        simp only [List.length_append, List.length_singleton]
        push_cast at hnext ⊢
        omega
      · intro j m hm
        simp only at hm ⊢
        by_cases hjlen : j < st1.carIdQueue.length
        · rw [List.get?_append hjlen] at hm
          obtain ⟨q1, q2, q3, q4⟩ := hq j m hm
          rw [hc2old m q1]
          exact ⟨by omega, q2, q3, q4⟩
        · obtain ⟨hlt, -⟩ := List.get?_eq_some.mp hm
          rw [List.length_append, List.length_singleton] at hlt
          have hj0 : j = st1.carIdQueue.length := by omega
          subst hj0
          rw [List.get?_concat_length] at hm
          obtain ⟨rfl⟩ : m = numCars := by simpa using hm.symm
          rw [hc2new]
          refine ⟨by omega, rfl, rfl, ?_⟩
          have hnext := hag.2.2.2
          show (st2.nextQueuingNumber : Int) = st2.lastQueuingNumber + 1 + _
          push_cast at hnext ⊢
          omega
    · rw [updf_other _ _ _ _ hts] at ha1 ha2
      obtain ⟨hagt, hdurt, hqt⟩ := H.streetData t sta stb ha1 ha2
      refine ⟨hagt, hdurt, ?_⟩
      intro j m hm
      obtain ⟨q1, q2, q3, q4⟩ := hqt j m hm
      rw [hc2old m q1]
      exact ⟨by omega, q2, q3, q4⟩
  · intro j hj ha hr hx st1a h1a
    by_cases hij : j = numCars
    · subst hij
      rw [hc2new] at h1a
      rw [show (⟨n, names, 0, s, 0, st2.nextQueuingNumber, false, 0,
          0⟩ : Car2).currentStreetName = s from rfl] at h1a
      rw [updf_same] at h1a
      simp only [Option.some.injEq] at h1a
      rw [← h1a]
      simp
    · have hj2 : j < numCars := by omega
      rw [hc2old j hj2] at ha hr hx h1a
      by_cases hts : (cars2 j).currentStreetName = s
      · rw [hts, updf_same] at h1a
        simp only [Option.some.injEq] at h1a
        rw [← h1a]
        have hmem := H.pending j hj2 ha hr hx st1 (by rw [hts]; exact h1)
        simp only [List.mem_append]
        exact Or.inl hmem
      · rw [updf_other _ _ _ _ hts] at h1a
        exact H.pending j hj2 ha hr hx st1a h1a

theorem initLoop1_cons (streets : String → Option Street1) (i : Nat)
    (r : Nat × List String) (rest : List (Nat × List String)) (st : Street1)
    (h : streets (r.2.getD 0 "") = some st) :
    initLoop1 streets i (r :: rest) =
      ((initLoop1 (updf streets (r.2.getD 0 "")
          (some { st with carIdQueue := st.carIdQueue ++ [i] }))
          (i + 1) rest).1,
       ⟨r.1, r.2, 0, 0, false, 0, 0⟩ ::
         (initLoop1 (updf streets (r.2.getD 0 "")
           (some { st with carIdQueue := st.carIdQueue ++ [i] }))
           (i + 1) rest).2) := by
  rw [initLoop1, h]

theorem initLoop2_cons (streets : String → Option Street2)
    (r : Nat × List String) (rest : List (Nat × List String)) (st : Street2)
    (h : streets (r.2.getD 0 "") = some st) :
    initLoop2 streets (r :: rest) =
      ((initLoop2 (updf streets (r.2.getD 0 "")
          (some { st with nextQueuingNumber := st.nextQueuingNumber + 1 }))
          rest).1,
       ⟨r.1, r.2, 0, r.2.getD 0 "", 0, st.nextQueuingNumber, false, 0, 0⟩ ::
         (initLoop2 (updf streets (r.2.getD 0 "")
           (some { st with nextQueuingNumber := st.nextQueuingNumber + 1 }))
           rest).2) := by
  rw [initLoop2, h]

/-- The two car initialisation loops keep the accumulated states
coupled. -/
theorem initLoop_coupled (streetNames : List String) :
    ∀ (routes : List (Nat × List String)) (acc1 : List Car1)
      (acc2 : List Car2) (s1 : String → Option Street1)
      (s2 : String → Option Street2),
      (∀ r ∈ routes, r.1 = r.2.length ∧ 1 ≤ r.2.length ∧
        ∀ name ∈ r.2, name ∈ streetNames) →
      (∀ name ∈ streetNames, (s2 name).isSome = true) →
      acc1.length = acc2.length →
      Coupled acc2.length s1 s2 (fun j => acc1.getD j defCar1)
        (fun j => acc2.getD j defCar2) →
      Coupled (acc2.length + routes.length)
        (initLoop1 s1 acc1.length routes).1
        (initLoop2 s2 routes).1
        (fun j => (acc1 ++ (initLoop1 s1 acc1.length routes).2).getD j
          defCar1)
        (fun j => (acc2 ++ (initLoop2 s2 routes).2).getD j defCar2) := by
  intro routes
  induction routes with
  | nil =>
    intro acc1 acc2 s1 s2 hWF hdom hlen H
    simp only [initLoop1, initLoop2, List.append_nil]
    exact H
  | cons r rest ih =>
    intro acc1 acc2 s1 s2 hWF hdom hlen H
    obtain ⟨hr1, hr2, hr3⟩ := hWF r (List.mem_cons_self r rest)
    have hname0 : r.2.getD 0 "" ∈ streetNames :=
      hr3 _ (getD_mem_of_lt r.2 0 "" (by omega))
    have h2some := hdom _ hname0
    obtain ⟨st2, h2⟩ := Option.isSome_iff_exists.mp h2some
    have h1some : (s1 (r.2.getD 0 "")).isSome = true := by
      rw [H.streetsIff]; exact h2some
    obtain ⟨st1, h1⟩ := Option.isSome_iff_exists.mp h1some
    rw [initLoop1_cons s1 acc1.length r rest st1 h1,
        initLoop2_cons s2 r rest st2 h2]
    rw [hlen]
    have H0 : Coupled (acc2.length + 1)
        (updf s1 (r.2.getD 0 "")
          (some { st1 with
            carIdQueue := st1.carIdQueue ++ [acc2.length] }))
        (updf s2 (r.2.getD 0 "")
          (some { st2 with
            nextQueuingNumber := st2.nextQueuingNumber + 1 }))
        (fun j => (acc1 ++
          [(⟨r.1, r.2, 0, 0, false, 0, 0⟩ : Car1)]).getD j defCar1)
        (fun j => (acc2 ++
          [(⟨r.1, r.2, 0, r.2.getD 0 "", 0, st2.nextQueuingNumber, false,
            0, 0⟩ : Car2)]).getD j defCar2) := by
      refine Coupled_newCar H h1 h2 hr1 hr2
        (fun name hnm => hdom name (hr3 name hnm)) rfl ?_ ?_ ?_ ?_
      · intro j hj
        exact List.getD_append _ _ _ _ (by omega)
      · intro j hj
        exact List.getD_append _ _ _ _ (by omega)
      · rw [← hlen, List.getD_eq_get?, List.get?_concat_length]
        rfl
      · rw [List.getD_eq_get?, List.get?_concat_length]
        rfl
    have hdom2 : ∀ name ∈ streetNames,
        ((updf s2 (r.2.getD 0 "")
          (some { st2 with
            nextQueuingNumber := st2.nextQueuingNumber + 1 }))
          name).isSome = true := by
      intro name hnm
      by_cases hts : name = r.2.getD 0 ""
      · subst hts; rw [updf_same]; rfl
      · rw [updf_other _ _ _ _ hts]; exact hdom name hnm
    have IHres := ih
      (acc1 ++ [(⟨r.1, r.2, 0, 0, false, 0, 0⟩ : Car1)])
      (acc2 ++ [(⟨r.1, r.2, 0, r.2.getD 0 "", 0, st2.nextQueuingNumber,
        false, 0, 0⟩ : Car2)])
      (updf s1 (r.2.getD 0 "")
        (some { st1 with carIdQueue := st1.carIdQueue ++ [acc2.length] }))
      (updf s2 (r.2.getD 0 "")
        (some { st2 with
          nextQueuingNumber := st2.nextQueuingNumber + 1 }))
      (fun q hq => hWF q (List.mem_cons_of_mem r hq)) hdom2
      (by simp [hlen])
      (by simp only [List.length_append, List.length_singleton]
          exact H0)
    simp only [List.length_append, List.length_singleton,
      ← List.append_cons] at IHres
    rw [hlen] at IHres
    rw [show acc2.length + 1 + rest.length =
      acc2.length + (rest.length + 1) from by omega] at IHres
    exact IHres

/-- The parse-time initial states of the two engines are coupled for any
well-formed data set. -/
theorem init_coupled (sched : String → Option (Nat × Nat))
    (win : String → Nat) (ds : Dataset) (hWF : WFDataset ds) :
    Coupled ds.carRoutes.length
      (initLoop1 (initStreets1 sched win (fun _ => none) ds.streetList) 0
        ds.carRoutes).1
      (initLoop2 (initStreets2 sched win (fun _ => none) ds.streetList)
        ds.carRoutes).1
      (fun i => ((initLoop1
        (initStreets1 sched win (fun _ => none) ds.streetList) 0
        ds.carRoutes).2).getD i defCar1)
      (fun i => ((initLoop2
        (initStreets2 sched win (fun _ => none) ds.streetList)
        ds.carRoutes).2).getD i defCar2) := by
  have hrel : initRel sched win
      (initStreets1 sched win (fun _ => none) ds.streetList)
      (initStreets2 sched win (fun _ => none) ds.streetList) :=
    initStreets_rel sched win ds.streetList _ _ hWF.1
      (fun name => Or.inl ⟨rfl, rfl⟩)
  have Hloop := initLoop_coupled (ds.streetList.map Prod.fst) ds.carRoutes
    [] [] (initStreets1 sched win (fun _ => none) ds.streetList)
    (initStreets2 sched win (fun _ => none) ds.streetList)
    hWF.2 (fun name hnm => initStreets2_dom sched win ds.streetList _ name
      hnm)
    rfl (Coupled_init0 hrel)
  simp only [List.length_nil, List.nil_append, Nat.zero_add] at Hloop
  exact Hloop

/-- C7: for every well-formed data set and compiled submission schedule,
the array-based FIFO engine of `index.js` and the counter-based engine of
`part_001` give every car the same final arrived flag, score and commute
time. -/
theorem C7_fifo_counter_equivalence (sched : String → Option (Nat × Nat))
    (win : String → Nat) (ds : Dataset) (hWF : WFDataset ds) :
    ∀ i < ds.carRoutes.length,
      ((runSim1 sched win ds).cars i).arrived =
        ((runSim2 sched win ds).cars i).arrived ∧
      ((runSim1 sched win ds).cars i).score =
        ((runSim2 sched win ds).cars i).score ∧
      ((runSim1 sched win ds).cars i).commuteTime =
        ((runSim2 sched win ds).cars i).commuteTime := by
  intro i hi
  have H := simulate_coupled ds.bonusPoint ds.duration ds.carRoutes.length
    (init_coupled sched win ds hWF)
  obtain ⟨-, -, -, -, harr, hsc, hct⟩ := H.cars i hi
  exact ⟨harr, hsc, hct⟩

/-- A small concrete data set exercising the equivalence. -/
def c7ds : Dataset :=
  ⟨3, 10, [("a", 1), ("b", 2)], [(2, ["a", "b"]), (1, ["b"])]⟩

def c7sched : String → Option (Nat × Nat) := fun s =>
  if s = "a" then some (0, 1) else if s = "b" then some (2, 2) else none

def c7win : String → Nat := fun _ => 3

theorem C7_fifo_counter_equivalence_witness :
    WFDataset c7ds ∧ 0 < c7ds.carRoutes.length ∧
      (((runSim1 c7sched c7win c7ds).cars 0).arrived =
        ((runSim2 c7sched c7win c7ds).cars 0).arrived ∧
      ((runSim1 c7sched c7win c7ds).cars 0).score =
        ((runSim2 c7sched c7win c7ds).cars 0).score ∧
      ((runSim1 c7sched c7win c7ds).cars 0).commuteTime =
        ((runSim2 c7sched c7win c7ds).cars 0).commuteTime) :=
  ⟨by decide, by decide,
   C7_fifo_counter_equivalence c7sched c7win c7ds (by decide) 0 (by decide)⟩

end Traffic
